import Mathlib

/-!
# The semilattice HTTP application (`clustering/administration/http/semilattice_app.cc`)

A shallow embedding of `get_resource_namespace`, `semilattice_http_app_t::handle`,
`get_root`, `verify_content_type` and the `metadata_change_callback` of the cluster and
auth variants, followed by the properties proved about them.

Conventions of the embedding.

* The typed document `metadata_t` is a type parameter `M`; the state of the external
  document store behind `metadata_change_handler` is a type parameter `S`; `uuid_u`
  (and so `namespace_id_t`) is a type parameter `U`.
* A C++ call that may throw returns an `effect`: the exception thrown, if any, together
  with the value the local `metadata` copy has afterwards.
* Every call `handle` makes on a collaborator is appended to a trace, so that the order of
  the calls, and their absence, can be stated.
* A `cJSON *` is an `Option cJSON` (`none` is the null pointer).
-/

namespace SemilatticeApp

/-! ## Collaborators declared outside the source file

Types and functions of headers the source file includes, as the source file uses them. -/

/-- A parsed JSON tree (`cJSON`): an object keeps its members in insertion order. -/
inductive cJSON where
  | Null
  | False
  | True
  | Number (valueint : Int)
  | String (valuestring : String)
  | Array (items : List cJSON)
  | Object (members : List (String × cJSON))

/-- `cJSON_CreateObject()`: a fresh object without members. -/
def cJSON_CreateObject : cJSON := cJSON.Object []

/-- `cJSON_AddItemToObject(object, name, item)`: the item is appended under `name`. -/
def cJSON_AddItemToObject (object : cJSON) (name : String) (item : cJSON) : cJSON :=
  match object with
  | cJSON.Object members => cJSON.Object (members ++ [(name, item)])
  | other => other

/-- The owning pointer `scoped_cJSON_t`: `val` is the owned `cJSON *`. -/
structure scoped_cJSON_t where
  val : Option cJSON

/-- `scoped_cJSON_t::get()`: the owned pointer, ownership kept. -/
def scoped_cJSON_t.get (p : scoped_cJSON_t) : Option cJSON := p.val

/-- `scoped_cJSON_t::release()`: ownership is given up, the owned pointer is handed out
and null is held from then on (the loop of `handle` relies on it when it moves
`absolute_change` into `inner` before resetting it). Returns the pointer and the object
afterwards. -/
def scoped_cJSON_t.release (p : scoped_cJSON_t) : Option cJSON × scoped_cJSON_t :=
  (p.val, { val := none })

/-- `scoped_cJSON_t::reset(v)`: the old value is deleted, `v` is owned from now on. -/
def scoped_cJSON_t.reset (_p : scoped_cJSON_t) (v : Option cJSON) : scoped_cJSON_t :=
  { val := v }

/-- `scoped_cJSON_t::AddItemToObject(name, item)`: `cJSON_AddItemToObject` on the owned
value; a null item is not added. -/
def scoped_cJSON_t.AddItemToObject (p : scoped_cJSON_t) (name : String)
    (item : Option cJSON) : scoped_cJSON_t :=
  match p.val, item with
  | some object, some it => { val := some (cJSON_AddItemToObject object name it) }
  | _, _ => p

/-- The exceptions of the code base that this file names. `other_exc_t` stands for an
exception of any type that no `catch` clause of this file names. -/
inductive exc_t where
  | schema_mismatch_exc_t (what : String)
  | permission_denied_exc_t (what : String)
  | cannot_satisfy_goals_exc_t (what : String)
  | gone_exc_t (what : String)
  | missing_machine_exc_t (what : String)
  | other_exc_t (what : String)
deriving DecidableEq, Repr

/-- The four exceptions `handle` has a `catch` clause for. -/
def exc_t.is_domain : exc_t → Bool
  | exc_t.schema_mismatch_exc_t _ => true
  | exc_t.permission_denied_exc_t _ => true
  | exc_t.cannot_satisfy_goals_exc_t _ => true
  | exc_t.gone_exc_t _ => true
  | _ => false

/-- Outcome of a call that works on the local `metadata` copy and may throw. -/
structure effect (M : Type) where
  thrown : Option exc_t
  metadata : M

/-- The call returned normally and left `m`. -/
def effect.ok {M : Type} (m : M) : effect M := { thrown := none, metadata := m }

/-- The call threw `e` and left `m`. -/
def effect.throw {M : Type} (e : exc_t) (m : M) : effect M :=
  { thrown := some e, metadata := m }

/-- The adapter interface `json_adapter_if_t`. An adapter points into the local `metadata`
copy, so every operation takes the current value of that copy; `get_subfields` returns the
`json_adapter_map_t` as its list of entries. -/
inductive json_adapter_if_t (M : Type) where
  | mk (render : M → cJSON)
       (get_subfields : M → List (String × json_adapter_if_t M))
       (apply : Option cJSON → M → effect M)
       (erase : M → effect M)
       (reset : M → effect M)

/-- Field `render()`. -/
def json_adapter_if_t.render {M : Type} : json_adapter_if_t M → M → cJSON
  | json_adapter_if_t.mk r _ _ _ _ => r

/-- Field `get_subfields()`. -/
def json_adapter_if_t.get_subfields {M : Type} :
    json_adapter_if_t M → M → List (String × json_adapter_if_t M)
  | json_adapter_if_t.mk _ g _ _ _ => g

/-- Field `apply(change)`. -/
def json_adapter_if_t.apply {M : Type} : json_adapter_if_t M → Option cJSON → M → effect M
  | json_adapter_if_t.mk _ _ a _ _ => a

/-- Field `erase()`. -/
def json_adapter_if_t.erase {M : Type} : json_adapter_if_t M → M → effect M
  | json_adapter_if_t.mk _ _ _ e _ => e

/-- Field `reset()`. -/
def json_adapter_if_t.reset {M : Type} : json_adapter_if_t M → M → effect M
  | json_adapter_if_t.mk _ _ _ _ r => r

/-- Modelled from the spec: the Priority Policy Map `defaulting_map_t<key, value>`, whose
class is declared outside the source file: "mapping from a key-namespace identifier to a
boolean flag, with a declared default flag for unlisted keys". -/
structure defaulting_map_t (K V : Type) where
  default_value : V
  overrides : List (K × V)
deriving DecidableEq, Repr

/-- Constructor `defaulting_map_t(d)`: default `d`, no entries. -/
def defaulting_map_t.mk_default {K V : Type} (d : V) : defaulting_map_t K V :=
  { default_value := d, overrides := [] }

/-- Method `set(key, value)`: the entry for `key` becomes `value`. -/
def defaulting_map_t.set {K V : Type} [DecidableEq K] (m : defaulting_map_t K V)
    (key : K) (value : V) : defaulting_map_t K V :=
  { m with overrides := (key, value) :: m.overrides.filter (fun p => decide (p.1 ≠ key)) }

/-- Method `get(key)`: the entry of `key`, the default for an unlisted key. -/
def defaulting_map_t.get {K V : Type} [DecidableEq K] (m : defaulting_map_t K V)
    (key : K) : V :=
  match m.overrides.find? (fun p => decide (p.1 = key)) with
  | some p => p.2
  | none => m.default_value

/-- The request methods of `http_method_t`. -/
inductive http_method_t where
  | HEAD | GET | POST | PUT | DELETE | TRACE | OPTIONS | CONNECT | PATCH
deriving DecidableEq, Repr

/-- The status codes the file uses. -/
inductive http_status_code_t where
  | HTTP_BAD_REQUEST
  | HTTP_NOT_FOUND
  | HTTP_METHOD_NOT_ALLOWED
  | HTTP_GONE
  | HTTP_UNSUPPORTED_MEDIA_TYPE
  | HTTP_INTERNAL_SERVER_ERROR
deriving DecidableEq, Repr

/-- A response, by the expression that builds it: `http_res_t(code)` (status only),
`http_json_res(json)` (success with a JSON body) and `http_error_res(content, rescode)`,
whose second argument is optional in C++ (`none`: the default of the declaration). -/
inductive http_res_t where
  | status (code : http_status_code_t)
  | http_json_res (json : cJSON)
  | http_error_res (content : String) (rescode : Option http_status_code_t)

/-- The request `http_req_t`, with the members and methods the file reads. -/
structure http_req_t where
  method : http_method_t
  resource : List String
  body : String
  find_query_param : String → Option String
  find_header_line : String → Option String
  get_sanitized_body : String

/-- The handle on the external document store, `metadata_change_handler_t<metadata_t>`. -/
structure metadata_change_handler_t (S M : Type) where
  get : S → M
  update : S → M → S

/-- The version context `vclock_ctx_t json_ctx(us)`. -/
structure vclock_ctx_t (U : Type) where
  us : U

/-- The lines the file writes with `logINF`, by their arguments. -/
inductive log_line where
  | bad_content_type (expected actual : String)
  | body_failed_to_parse (sanitized_body : String)
  | unable_to_extract_namespace (what : String)
  | invalid_prefer_distribution (value : String)
  | applying_data (absolute_change : Option cJSON)
  | deleting (resource : List String)
  | request_threw (e : exc_t)

/-- The calls `handle` makes on its collaborators, with their arguments and, for a call
that may throw, the exception it threw (`thrown`, `none` when it returned normally). -/
inductive event_t (M U : Type) where
  | get
  | reset (thrown : Option exc_t)
  | apply (change : Option cJSON) (thrown : Option exc_t)
  | erase (thrown : Option exc_t)
  | metadata_change_callback (metadata : M)
      (prioritize_distr_for_ns : defaulting_map_t U Bool) (thrown : Option exc_t)
  | update (metadata : M)
  | logINF (line : log_line)

/-- Whether the event is a reset, an apply, an erase, a callback or a commit. -/
def event_t.is_mutation {M U : Type} : event_t M U → Bool
  | event_t.reset _ => true
  | event_t.apply _ _ => true
  | event_t.erase _ => true
  | event_t.metadata_change_callback _ _ _ => true
  | event_t.update _ => true
  | _ => false

/-- The exception the call of the event threw, if any. -/
def event_t.thrown {M U : Type} : event_t M U → Option exc_t
  | event_t.reset thrown => thrown
  | event_t.apply _ thrown => thrown
  | event_t.erase thrown => thrown
  | event_t.metadata_change_callback _ _ thrown => thrown
  | _ => none

/-- The class `semilattice_http_app_t<metadata_t>`: its members, its virtual
`metadata_change_callback`, the free functions it calls that are declared elsewhere, and
whether it was compiled with `NDEBUG`. -/
structure semilattice_http_app_t (S M U : Type) where
  metadata_change_handler : metadata_change_handler_t S M
  us : U
  metadata_change_callback : M → defaulting_map_t U Bool → effect M
  json_ctx_adapter_t : vclock_ctx_t U → json_adapter_if_t M
  cJSON_Parse : String → Option cJSON
  str_to_uuid : String → Option U
  NDEBUG : Bool

/-! ## The source file -/

/-- The exception `collect_namespaces_exc_t` of the helper below. -/
structure collect_namespaces_exc_t where
  msg : String
deriving DecidableEq, Repr

/-- Method `what()`. -/
def collect_namespaces_exc_t.what (e : collect_namespaces_exc_t) : String := e.msg

/-- Function `get_resource_namespace(resource)`: the changed namespace id of a resource
path. `str_to_uuid` throws when the text is no UUID, here it yields `none`. -/
def get_resource_namespace {U : Type} (str_to_uuid : String → Option U)
    (resource : List String) : Except collect_namespaces_exc_t U :=
  match resource with
  | [] => Except.error { msg := "No namespace protocol defined" }
  | protocol_ns :: resource_it =>
    if protocol_ns ≠ "rdb_namespaces" ∧
       protocol_ns ≠ "dummy_namespaces" ∧
       protocol_ns ≠ "memcached_namespaces" then
      Except.error { msg := "Unhandled namespace protocol " ++ protocol_ns }
    else
      match resource_it with
      | [] => Except.error { msg := "No namespace defined" }
      | ns :: _ =>
        match str_to_uuid ns with
        | some id => Except.ok id
        | none => Except.error { msg := "Unable to decode UUID " ++ ns }

/-- The predicate `boost::istarts_with(input, test)`: `test` begins `input`, letter case
ignored. -/
def istarts_with (input test : String) : Bool :=
  (test.toList.map Char.toLower).isPrefixOf (input.toList.map Char.toLower)

/-- Method `verify_content_type(req, expected_content_type)`: the verdict, and the line it
logs when the verdict is false. -/
def verify_content_type (req : http_req_t) (expected_content_type : String) :
    Bool × List log_line :=
  let content_type := req.find_header_line "Content-Type"
  match content_type with
  | none => (false, [log_line.bad_content_type expected_content_type "<NONE>"])
  | some ct =>
    if !istarts_with ct expected_content_type then
      (false, [log_line.bad_content_type expected_content_type ct])
    else
      (true, [])

/-- The part of `handle` (case POST) that determines `prioritize_distr_for_ns`: the map,
or the line logged before `HTTP_BAD_REQUEST` is returned. -/
def prioritize_distr_for_ns {U : Type} [DecidableEq U] (str_to_uuid : String → Option U)
    (req : http_req_t) : Except log_line (defaulting_map_t U Bool) :=
  let prioritize : defaulting_map_t U Bool := defaulting_map_t.mk_default false
  match req.find_query_param "prefer_distribution" with
  | none => Except.ok prioritize
  | some param =>
    if param = "none" then
      Except.ok prioritize
    else if param = "all" then
      Except.ok (defaulting_map_t.mk_default true)
    else if param = "changed_only" then
      match get_resource_namespace str_to_uuid req.resource with
      | Except.ok changed_ns =>
        Except.ok (prioritize.set changed_ns true)
      | Except.error e => Except.error (log_line.unable_to_extract_namespace e.what)
    else
      Except.error (log_line.invalid_prefer_distribution param)

/-- The block of `handle` that builds and logs `absolute_change` out of `change`:
`change` is released into `absolute_change`, which is then wrapped once per path segment,
last segment first. Returns the value printed and `change` as the block leaves it. -/
def absolute_change_block (change : scoped_cJSON_t) (resource : List String) :
    Option cJSON × scoped_cJSON_t :=
  let released := change.release
  let absolute_change : scoped_cJSON_t := { val := released.1 }
  let parts := resource
  let wrapped := parts.reverse.foldl
    (fun (absolute_change : scoped_cJSON_t) (jt : String) =>
      let inner := absolute_change.release
      let object := inner.2.reset (some cJSON_CreateObject)
      object.AddItemToObject jt inner.1)
    absolute_change
  (wrapped.val, released.2)

/-- What one call of `handle` does next: it returns a response, or an exception leaves
it. -/
inductive flow_t where
  | returned (res : http_res_t)
  | threw (e : exc_t)

/-- One call of `handle`, from outside: how it ended, the store afterwards, the last value
of the local `metadata` copy, and the calls made, in order. -/
structure run_t (S M U : Type) where
  flow : flow_t
  store : S
  metadata : M
  trace : List (event_t M U)

/-- The loop of `handle` that walks the path: the adapter the path leads to, `none` when a
segment is not among the subfields (`HTTP_NOT_FOUND`). -/
def traverse {M : Type} (json_adapter_head : json_adapter_if_t M) (metadata : M) :
    List String → Option (json_adapter_if_t M)
  | [] => some json_adapter_head
  | it :: rest =>
    match (json_adapter_head.get_subfields metadata).lookup it with
    | none => none
    | some subfield => traverse subfield metadata rest

/-- Case POST of the switch in `handle`, entered with the trace `t` so far. -/
def handle_POST {S M U : Type} [DecidableEq U] (app : semilattice_http_app_t S M U)
    (req : http_req_t) (store : S) (metadata : M) (json_adapter_head : json_adapter_if_t M)
    (t : List (event_t M U)) : run_t S M U :=
  let verdict := verify_content_type req "application/json"
  if app.NDEBUG && !verdict.1 then
    { flow := flow_t.returned (http_res_t.status http_status_code_t.HTTP_UNSUPPORTED_MEDIA_TYPE),
      store := store, metadata := metadata,
      trace := t ++ verdict.2.map event_t.logINF }
  else
    let change : scoped_cJSON_t := { val := app.cJSON_Parse req.body }
    match change.get with
    | none =>
      { flow := flow_t.returned (http_res_t.status http_status_code_t.HTTP_BAD_REQUEST),
        store := store, metadata := metadata,
        trace := t ++ [event_t.logINF (log_line.body_failed_to_parse req.get_sanitized_body)] }
    | some _ =>
      match prioritize_distr_for_ns app.str_to_uuid req with
      | Except.error line =>
        { flow := flow_t.returned (http_res_t.status http_status_code_t.HTTP_BAD_REQUEST),
          store := store, metadata := metadata,
          trace := t ++ [event_t.logINF line] }
      | Except.ok prioritize =>
        let applied := json_adapter_head.apply change.get metadata
        let t1 := t ++ [event_t.apply change.get applied.thrown]
        match applied.thrown with
        | some e =>
          { flow := flow_t.threw e, store := store, metadata := applied.metadata, trace := t1 }
        | none =>
          let logged := absolute_change_block change req.resource
          let t2 := t1 ++ [event_t.logINF (log_line.applying_data logged.1)]
          let changed := app.metadata_change_callback applied.metadata prioritize
          let t3 := t2 ++ [event_t.metadata_change_callback applied.metadata prioritize changed.thrown]
          match changed.thrown with
          | some e =>
            { flow := flow_t.threw e, store := store, metadata := changed.metadata,
              trace := t3 }
          | none =>
            { flow := flow_t.returned
                (http_res_t.http_json_res (json_adapter_head.render changed.metadata)),
              store := app.metadata_change_handler.update store changed.metadata,
              metadata := changed.metadata,
              trace := t3 ++ [event_t.update changed.metadata] }

/-- Case DELETE of the switch in `handle`, entered with the trace `t` so far. -/
def handle_DELETE {S M U : Type} (app : semilattice_http_app_t S M U)
    (req : http_req_t) (store : S) (metadata : M) (json_adapter_head : json_adapter_if_t M)
    (t : List (event_t M U)) : run_t S M U :=
  let erased := json_adapter_head.erase metadata
  let t1 := t ++ [event_t.erase erased.thrown]
  match erased.thrown with
  | some e =>
    { flow := flow_t.threw e, store := store, metadata := erased.metadata, trace := t1 }
  | none =>
    let t2 := t1 ++ [event_t.logINF (log_line.deleting req.resource)]
    let prioritize : defaulting_map_t U Bool := defaulting_map_t.mk_default false
    let changed := app.metadata_change_callback erased.metadata prioritize
    let t3 := t2 ++ [event_t.metadata_change_callback erased.metadata prioritize changed.thrown]
    match changed.thrown with
    | some e =>
      { flow := flow_t.threw e, store := store, metadata := changed.metadata, trace := t3 }
    | none =>
      { flow := flow_t.returned
          (http_res_t.http_json_res (json_adapter_head.render changed.metadata)),
        store := app.metadata_change_handler.update store changed.metadata,
        metadata := changed.metadata,
        trace := t3 ++ [event_t.update changed.metadata] }

/-- Case PUT of the switch in `handle`, entered with the trace `t` so far. The block that
logs `absolute_change` runs before `reset` and `apply`, and `apply` is handed
`change.get()` as that block leaves `change`. -/
def handle_PUT {S M U : Type} (app : semilattice_http_app_t S M U)
    (req : http_req_t) (store : S) (metadata : M) (json_adapter_head : json_adapter_if_t M)
    (t : List (event_t M U)) : run_t S M U :=
  let verdict := verify_content_type req "application/json"
  if app.NDEBUG && !verdict.1 then
    { flow := flow_t.returned (http_res_t.status http_status_code_t.HTTP_UNSUPPORTED_MEDIA_TYPE),
      store := store, metadata := metadata,
      trace := t ++ verdict.2.map event_t.logINF }
  else
    let change : scoped_cJSON_t := { val := app.cJSON_Parse req.body }
    match change.get with
    | none =>
      { flow := flow_t.returned (http_res_t.status http_status_code_t.HTTP_BAD_REQUEST),
        store := store, metadata := metadata,
        trace := t ++ [event_t.logINF (log_line.body_failed_to_parse req.get_sanitized_body)] }
    | some _ =>
      let logged := absolute_change_block change req.resource
      let change := logged.2
      let t1 := t ++ [event_t.logINF (log_line.applying_data logged.1)]
      let cleared := json_adapter_head.reset metadata
      let t2 := t1 ++ [event_t.reset cleared.thrown]
      match cleared.thrown with
      | some e =>
        { flow := flow_t.threw e, store := store, metadata := cleared.metadata, trace := t2 }
      | none =>
        let applied := json_adapter_head.apply change.get cleared.metadata
        let t3 := t2 ++ [event_t.apply change.get applied.thrown]
        match applied.thrown with
        | some e =>
          { flow := flow_t.threw e, store := store, metadata := applied.metadata,
            trace := t3 }
        | none =>
          let prioritize : defaulting_map_t U Bool := defaulting_map_t.mk_default false
          let changed := app.metadata_change_callback applied.metadata prioritize
          let t4 := t3 ++ [event_t.metadata_change_callback applied.metadata prioritize changed.thrown]
          match changed.thrown with
          | some e =>
            { flow := flow_t.threw e, store := store, metadata := changed.metadata,
              trace := t4 }
          | none =>
            { flow := flow_t.returned
                (http_res_t.http_json_res (json_adapter_head.render changed.metadata)),
              store := app.metadata_change_handler.update store changed.metadata,
              metadata := changed.metadata,
              trace := t4 ++ [event_t.update changed.metadata] }

/-- The `try` block of `handle`: fetch, wrap, walk the path, dispatch on the method. -/
def handle_try {S M U : Type} [DecidableEq U] (app : semilattice_http_app_t S M U)
    (req : http_req_t) (store : S) : run_t S M U :=
  let metadata := app.metadata_change_handler.get store
  let t : List (event_t M U) := [event_t.get]
  let json_ctx : vclock_ctx_t U := { us := app.us }
  match traverse (app.json_ctx_adapter_t json_ctx) metadata req.resource with
  | none =>
    { flow := flow_t.returned (http_res_t.status http_status_code_t.HTTP_NOT_FOUND),
      store := store, metadata := metadata, trace := t }
  | some json_adapter_head =>
    match req.method with
    | http_method_t.GET =>
      { flow := flow_t.returned (http_res_t.http_json_res (json_adapter_head.render metadata)),
        store := store, metadata := metadata, trace := t }
    | http_method_t.POST => handle_POST app req store metadata json_adapter_head t
    | http_method_t.DELETE => handle_DELETE app req store metadata json_adapter_head t
    | http_method_t.PUT => handle_PUT app req store metadata json_adapter_head t
    | _ =>
      { flow := flow_t.returned (http_res_t.status http_status_code_t.HTTP_METHOD_NOT_ALLOWED),
        store := store, metadata := metadata, trace := t }

/-- Method `handle(req)`: the `try` block and its four `catch` clauses. An exception of
another type leaves `handle`. -/
def handle {S M U : Type} [DecidableEq U] (app : semilattice_http_app_t S M U)
    (req : http_req_t) (store : S) : run_t S M U :=
  let r := handle_try app req store
  match r.flow with
  | flow_t.returned _ => r
  | flow_t.threw e =>
    match e with
    | exc_t.schema_mismatch_exc_t what =>
      { r with flow := flow_t.returned (http_res_t.http_error_res what none),
               trace := r.trace ++ [event_t.logINF (log_line.request_threw e)] }
    | exc_t.permission_denied_exc_t what =>
      { r with flow := flow_t.returned (http_res_t.http_error_res what none),
               trace := r.trace ++ [event_t.logINF (log_line.request_threw e)] }
    | exc_t.cannot_satisfy_goals_exc_t what =>
      { r with flow := flow_t.returned (http_res_t.http_error_res what
                 (some http_status_code_t.HTTP_INTERNAL_SERVER_ERROR)),
               trace := r.trace ++ [event_t.logINF (log_line.request_threw e)] }
    | exc_t.gone_exc_t what =>
      { r with flow := flow_t.returned (http_res_t.http_error_res what
                 (some http_status_code_t.HTTP_GONE)),
               trace := r.trace ++ [event_t.logINF (log_line.request_threw e)] }
    | _ => r

/-- Method `get_root(json_out)`: the value `json_out` is reset to. -/
def get_root {S M U : Type} (app : semilattice_http_app_t S M U) (store : S) : cJSON :=
  let metadata := app.metadata_change_handler.get store
  let json_ctx : vclock_ctx_t U := { us := app.us }
  let json_adapter := app.json_ctx_adapter_t json_ctx
  json_adapter.render metadata

/-- Method `cluster_semilattice_http_app_t::metadata_change_callback`: it calls
`fill_in_blueprints` (declared outside the source file, here a parameter) on the document,
the directory, `us` and the policy map, and swallows `missing_machine_exc_t`; what
`fill_in_blueprints` did to the document before it threw stays. -/
def cluster_semilattice_http_app_t.metadata_change_callback {M U D : Type}
    (fill_in_blueprints : M → D → U → defaulting_map_t U Bool → effect M)
    (directory_metadata : D) (us : U)
    (new_metadata : M) (prioritize_distr_for_ns : defaulting_map_t U Bool) : effect M :=
  let filled := fill_in_blueprints new_metadata directory_metadata us prioritize_distr_for_ns
  match filled.thrown with
  | some (exc_t.missing_machine_exc_t _) => effect.ok filled.metadata
  | _ => filled

/-- The class `cluster_semilattice_http_app_t`: the application `app` with the callback of
the cluster variant over the directory `directory_metadata`. -/
def cluster_semilattice_http_app_t {S M U D : Type}
    (app : semilattice_http_app_t S M U)
    (fill_in_blueprints : M → D → U → defaulting_map_t U Bool → effect M)
    (directory_metadata : D) : semilattice_http_app_t S M U :=
  { app with metadata_change_callback :=
      (cluster_semilattice_http_app_t.metadata_change_callback fill_in_blueprints
        directory_metadata app.us) }

/-- Method `auth_semilattice_http_app_t::metadata_change_callback`: it does nothing. -/
def auth_semilattice_http_app_t.metadata_change_callback {M U : Type}
    (new_metadata : M) (_prioritize_distr_for_ns : defaulting_map_t U Bool) : effect M :=
  effect.ok new_metadata

/-- The class `auth_semilattice_http_app_t`: the application `app` with the callback of
the auth variant. -/
def auth_semilattice_http_app_t {S M U : Type}
    (app : semilattice_http_app_t S M U) : semilattice_http_app_t S M U :=
  { app with metadata_change_callback := auth_semilattice_http_app_t.metadata_change_callback }

/-! ## A concrete document, to run the functions on

The theorems below hold for every document type, store and adapter. The definitions of
this section only supply the concrete inputs at which they are instantiated. -/

/-- Modelled from the spec: a document of named integer fields, standing in for a typed
`metadata_t` (the documents and their adapter classes are declared outside the source
file). -/
abbrev fields_t : Type := List (String × Int)

/-- The document with the field `name` set to `value`; a new field goes last. -/
def set_field (name : String) (value : Int) : fields_t → fields_t
  | [] => [(name, value)]
  | (n, v) :: rest =>
    if n = name then (n, value) :: rest else (n, v) :: set_field name value rest

/-- Modelled from the spec: the adapter of one integer field, a leaf of the Adapter Node
contract: it renders the number, has no subfields, `apply` replaces the number and fails
with schema-mismatch on anything that is not a number, `erase` drops the field, `reset`
puts the default `0`. -/
def field_adapter (name : String) : json_adapter_if_t fields_t :=
  json_adapter_if_t.mk
    (fun m => match m.lookup name with
      | some v => cJSON.Number v
      | none => cJSON.Null)
    (fun _ => [])
    (fun change m => match change with
      | some (cJSON.Number v) => effect.ok (set_field name v m)
      | _ => effect.throw (exc_t.schema_mismatch_exc_t "expected a number") m)
    (fun m => effect.ok (m.filter (fun p => decide (p.1 ≠ name))))
    (fun m => effect.ok (set_field name 0 m))

/-- Merge of the members of an object into the document, in order; a member that is not a
number stops the merge with schema-mismatch, the earlier members staying applied. -/
def apply_members : List (String × cJSON) → fields_t → effect fields_t
  | [], m => effect.ok m
  | (name, cJSON.Number v) :: rest, m => apply_members rest (set_field name v m)
  | _ :: _, m => effect.throw (exc_t.schema_mismatch_exc_t "expected a number") m

/-- Modelled from the spec: the adapter of the whole document, a composite of the Adapter
Node contract: it renders an object of its fields, its subfields are the fields by name,
`apply` merges an object field by field and fails with schema-mismatch on anything else,
`erase` is rejected with permission-denied, `reset` empties the document. -/
def root_adapter : json_adapter_if_t fields_t :=
  json_adapter_if_t.mk
    (fun m => cJSON.Object (m.map (fun p => (p.1, cJSON.Number p.2))))
    (fun m => m.map (fun p => (p.1, field_adapter p.1)))
    (fun change m => match change with
      | some (cJSON.Object members) => apply_members members m
      | _ => effect.throw (exc_t.schema_mismatch_exc_t "expected an object") m)
    (fun m => effect.throw (exc_t.permission_denied_exc_t "cannot erase the document") m)
    (fun _ => effect.ok [])

/-- A parser for the bodies used below: two object literals and one number literal are
understood, everything else fails to parse. -/
def example_parse (body : String) : Option cJSON :=
  if body = "\x7b\"a\": 9\x7d" then some (cJSON.Object [("a", cJSON.Number 9)])
  else if body = "\x7b\"a\": true\x7d" then some (cJSON.Object [("a", cJSON.True)])
  else if body = "7" then some (cJSON.Number 7)
  else none

/-- Modelled from the spec: an adapter one level above `root_adapter`, whose only subfield
`rdb_namespaces` is the document of fields; it renders that subfield under its name,
`apply` and `erase` are rejected with permission-denied, `reset` empties the document. -/
def cluster_adapter : json_adapter_if_t fields_t :=
  json_adapter_if_t.mk
    (fun m => cJSON.Object [("rdb_namespaces", root_adapter.render m)])
    (fun _ => [("rdb_namespaces", root_adapter)])
    (fun _ m => effect.throw (exc_t.permission_denied_exc_t "read-only") m)
    (fun m => effect.throw (exc_t.permission_denied_exc_t "read-only") m)
    (fun _ => effect.ok [])

/-- An application over `fields_t` with the given root adapter: the store holds one
document and `update` replaces it, the callback does nothing, UUIDs are the texts of eight
characters. -/
def example_app (ndebug : Bool) (root : json_adapter_if_t fields_t) :
    semilattice_http_app_t fields_t fields_t String :=
  { metadata_change_handler := { get := fun s => s, update := fun _ m => m },
    us := "00000000",
    metadata_change_callback := fun m _ => effect.ok m,
    json_ctx_adapter_t := fun _ => root,
    cJSON_Parse := example_parse,
    str_to_uuid := fun ns => if ns.length = 8 then some ns else none,
    NDEBUG := ndebug }

/-- A request with the given method, path and body, the given `prefer_distribution`
parameter and the given `Content-Type` header, and nothing else. -/
def example_req (method : http_method_t) (resource : List String) (body : String)
    (prefer_distribution content_type : Option String) : http_req_t :=
  { method := method, resource := resource, body := body,
    find_query_param := fun key =>
      if key = "prefer_distribution" then prefer_distribution else none,
    find_header_line := fun key => if key = "Content-Type" then content_type else none,
    get_sanitized_body := body }

/-- The stored document of the examples: `a` is 1 and `b` is 2. -/
def example_store : fields_t := [("a", 1), ("b", 2)]

/-! ## The words of the specification -/

/-- The node a path resolves to: the start node for the empty path, otherwise the node
reached by looking up each segment, in order, among the subfields of the node reached so
far. -/
inductive resolves_to {M : Type} (metadata : M) :
    json_adapter_if_t M → List String → json_adapter_if_t M → Prop where
  | here (n : json_adapter_if_t M) : resolves_to metadata n [] n
  | step (n child target : json_adapter_if_t M) (segment : String) (rest : List String) :
      (n.get_subfields metadata).lookup segment = some child →
      resolves_to metadata child rest target →
      resolves_to metadata n (segment :: rest) target

/-- The walk along the path leaves the tree: after some segments, resolved to a node, the
next segment is not a key of the subfields of that node. -/
def walks_off {M : Type} (metadata : M) (root : json_adapter_if_t M)
    (resource : List String) : Prop :=
  ∃ (before : List String) (segment : String) (after : List String)
    (n : json_adapter_if_t M),
    resource = before ++ segment :: after ∧
    resolves_to metadata root before n ∧
    (n.get_subfields metadata).lookup segment = none

/-- The response the catch clauses owe to a domain exception: an error response with the
message for schema-mismatch and permission-denied, with internal-server-error for
cannot-satisfy-goals and with gone for gone; no response for any other exception. -/
def error_response : exc_t → Option http_res_t
  | exc_t.schema_mismatch_exc_t what => some (http_res_t.http_error_res what none)
  | exc_t.permission_denied_exc_t what => some (http_res_t.http_error_res what none)
  | exc_t.cannot_satisfy_goals_exc_t what =>
    some (http_res_t.http_error_res what (some http_status_code_t.HTTP_INTERNAL_SERVER_ERROR))
  | exc_t.gone_exc_t what =>
    some (http_res_t.http_error_res what (some http_status_code_t.HTTP_GONE))
  | _ => none

/-- The three namespace tags a resource path may start with. -/
def namespace_tags : List String :=
  ["rdb_namespaces", "dummy_namespaces", "memcached_namespaces"]

/-- The object whose nesting mirrors the path: the body itself for the empty path,
otherwise an object with the first segment as its only key, holding the nesting of the
remaining segments. -/
def nested_change : List String → cJSON → cJSON
  | [], body => body
  | segment :: rest, body => cJSON.Object [(segment, nested_change rest body)]

/-- The text `value` starts with `expected` when letter case is ignored: a beginning of
`value` and `expected` are the same once both are put in lower case. -/
def starts_with_ignoring_case (value expected : String) : Prop :=
  ∃ beginning rest : List Char,
    value.toList = beginning ++ rest ∧
    beginning.map Char.toLower = expected.toList.map Char.toLower

/-- Whether the event is a commit (`update`). -/
def event_t.is_update {M U : Type} : event_t M U → Bool
  | event_t.update _ => true
  | _ => false

/-! ## Lemmas -/

theorem traverse_eq_some_iff {M : Type} (metadata : M) (resource : List String) :
    ∀ (head target : json_adapter_if_t M),
      traverse head metadata resource = some target ↔
        resolves_to metadata head resource target := by
  induction resource with
  | nil =>
    intro head target
    constructor
    · intro h
      simp only [traverse, Option.some.injEq] at h
      subst h
      exact resolves_to.here head
    · intro h
      cases h
      rfl
  | cons seg rest ih =>
    intro head target
    constructor
    · intro h
      simp only [traverse] at h
      cases hl : (head.get_subfields metadata).lookup seg with
      | none => simp [hl] at h
      | some child =>
        simp only [hl] at h
        exact resolves_to.step head child target seg rest hl ((ih child target).1 h)
    · intro h
      cases h with
      | step _ child _ _ _ hl hr =>
        simp only [traverse, hl]
        exact (ih child target).2 hr

theorem traverse_eq_none_iff {M : Type} (metadata : M) (resource : List String) :
    ∀ (head : json_adapter_if_t M),
      traverse head metadata resource = none ↔ walks_off metadata head resource := by
  induction resource with
  | nil =>
    intro head
    constructor
    · intro h
      simp [traverse] at h
    · rintro ⟨before, segment, after, n, hsplit, _, _⟩
      simp at hsplit
  | cons seg rest ih =>
    intro head
    constructor
    · intro h
      simp only [traverse] at h
      cases hl : (head.get_subfields metadata).lookup seg with
      | none =>
        exact ⟨[], seg, rest, head, rfl, resolves_to.here head, hl⟩
      | some child =>
        simp only [hl] at h
        obtain ⟨before, segment, after, n, hsplit, hres, hnone⟩ := (ih child).1 h
        refine ⟨seg :: before, segment, after, n, ?_, ?_, hnone⟩
        · simp [hsplit]
        · exact resolves_to.step head child n seg before hl hres
    · rintro ⟨before, segment, after, n, hsplit, hres, hnone⟩
      cases hres with
      | here =>
        simp only [List.nil_append, List.cons.injEq] at hsplit
        obtain ⟨h1, _⟩ := hsplit
        subst h1
        simp only [traverse, hnone]
      | step _ child _ s r hl hr =>
        simp only [List.cons_append, List.cons.injEq] at hsplit
        obtain ⟨h1, h2⟩ := hsplit
        subst h1
        simp only [traverse, hl]
        exact (ih child).2 ⟨r, segment, after, n, h2, hr, hnone⟩

theorem handle_try_of_traverse_none {S M U : Type} [DecidableEq U]
    (app : semilattice_http_app_t S M U) (req : http_req_t) (store : S)
    (h : traverse (app.json_ctx_adapter_t { us := app.us })
          (app.metadata_change_handler.get store) req.resource = none) :
    handle_try app req store =
      { flow := flow_t.returned (http_res_t.status http_status_code_t.HTTP_NOT_FOUND),
        store := store, metadata := app.metadata_change_handler.get store,
        trace := [event_t.get] } := by
  simp only [handle_try, h]

theorem handle_try_of_traverse_some {S M U : Type} [DecidableEq U]
    (app : semilattice_http_app_t S M U) (req : http_req_t) (store : S)
    (n : json_adapter_if_t M)
    (h : traverse (app.json_ctx_adapter_t { us := app.us })
          (app.metadata_change_handler.get store) req.resource = some n) :
    handle_try app req store =
      match req.method with
      | http_method_t.GET =>
        { flow := flow_t.returned
            (http_res_t.http_json_res (n.render (app.metadata_change_handler.get store))),
          store := store, metadata := app.metadata_change_handler.get store,
          trace := [event_t.get] }
      | http_method_t.POST =>
        handle_POST app req store (app.metadata_change_handler.get store) n [event_t.get]
      | http_method_t.DELETE =>
        handle_DELETE app req store (app.metadata_change_handler.get store) n [event_t.get]
      | http_method_t.PUT =>
        handle_PUT app req store (app.metadata_change_handler.get store) n [event_t.get]
      | _ =>
        { flow := flow_t.returned
            (http_res_t.status http_status_code_t.HTTP_METHOD_NOT_ALLOWED),
          store := store, metadata := app.metadata_change_handler.get store,
          trace := [event_t.get] } := by
  simp only [handle_try, h]

/-- The three ways case DELETE can go. -/
theorem handle_DELETE_cases {S M U : Type}
    (app : semilattice_http_app_t S M U) (req : http_req_t) (store : S) (metadata : M)
    (n : json_adapter_if_t M) (t : List (event_t M U)) :
    (∃ e m1, n.erase metadata = effect.throw e m1 ∧
      handle_DELETE app req store metadata n t =
        { flow := flow_t.threw e, store := store, metadata := m1,
          trace := t ++ [event_t.erase (some e)] }) ∨
    (∃ m1 e m2, n.erase metadata = effect.ok m1 ∧
      app.metadata_change_callback m1 (defaulting_map_t.mk_default false) =
        effect.throw e m2 ∧
      handle_DELETE app req store metadata n t =
        { flow := flow_t.threw e, store := store, metadata := m2,
          trace := t ++ [event_t.erase none, event_t.logINF (log_line.deleting req.resource),
            event_t.metadata_change_callback m1 (defaulting_map_t.mk_default false)
              (some e)] }) ∨
    (∃ m1 m2, n.erase metadata = effect.ok m1 ∧
      app.metadata_change_callback m1 (defaulting_map_t.mk_default false) = effect.ok m2 ∧
      handle_DELETE app req store metadata n t =
        { flow := flow_t.returned (http_res_t.http_json_res (n.render m2)),
          store := app.metadata_change_handler.update store m2, metadata := m2,
          trace := t ++ [event_t.erase none, event_t.logINF (log_line.deleting req.resource),
            event_t.metadata_change_callback m1 (defaulting_map_t.mk_default false) none,
            event_t.update m2] }) := by
  rcases h1 : n.erase metadata with ⟨_ | e1, m1⟩
  · rcases h2 : app.metadata_change_callback m1 (defaulting_map_t.mk_default false)
      with ⟨_ | e2, m2⟩
    · exact Or.inr (Or.inr ⟨m1, m2, rfl, h2, by simp [handle_DELETE, h1, h2]⟩)
    · exact Or.inr (Or.inl ⟨m1, e2, m2, rfl, h2, by simp [handle_DELETE, h1, h2]⟩)
  · exact Or.inl ⟨e1, m1, rfl, by simp [handle_DELETE, h1]⟩

/-- The six ways case POST can go. -/
theorem handle_POST_cases {S M U : Type} [DecidableEq U]
    (app : semilattice_http_app_t S M U) (req : http_req_t) (store : S) (metadata : M)
    (n : json_adapter_if_t M) (t : List (event_t M U)) :
    (app.NDEBUG = true ∧ (verify_content_type req "application/json").1 = false ∧
      handle_POST app req store metadata n t =
        { flow := flow_t.returned
            (http_res_t.status http_status_code_t.HTTP_UNSUPPORTED_MEDIA_TYPE),
          store := store, metadata := metadata,
          trace := t ++ (verify_content_type req "application/json").2.map
            event_t.logINF }) ∨
    ((app.NDEBUG = true → (verify_content_type req "application/json").1 = true) ∧
      ((app.cJSON_Parse req.body = none ∧
        handle_POST app req store metadata n t =
          { flow := flow_t.returned (http_res_t.status http_status_code_t.HTTP_BAD_REQUEST),
            store := store, metadata := metadata,
            trace := t ++ [event_t.logINF
              (log_line.body_failed_to_parse req.get_sanitized_body)] }) ∨
      (∃ v, app.cJSON_Parse req.body = some v ∧
        ((∃ line, prioritize_distr_for_ns app.str_to_uuid req = Except.error line ∧
          handle_POST app req store metadata n t =
            { flow := flow_t.returned
                (http_res_t.status http_status_code_t.HTTP_BAD_REQUEST),
              store := store, metadata := metadata,
              trace := t ++ [event_t.logINF line] }) ∨
        (∃ p, prioritize_distr_for_ns app.str_to_uuid req = Except.ok p ∧
          ((∃ e m1, n.apply (some v) metadata = effect.throw e m1 ∧
            handle_POST app req store metadata n t =
              { flow := flow_t.threw e, store := store, metadata := m1,
                trace := t ++ [event_t.apply (some v) (some e)] }) ∨
          (∃ m1 e m2, n.apply (some v) metadata = effect.ok m1 ∧
            app.metadata_change_callback m1 p = effect.throw e m2 ∧
            handle_POST app req store metadata n t =
              { flow := flow_t.threw e, store := store, metadata := m2,
                trace := t ++ [event_t.apply (some v) none,
                  event_t.logINF (log_line.applying_data
                    (absolute_change_block { val := some v } req.resource).1),
                  event_t.metadata_change_callback m1 p (some e)] }) ∨
          (∃ m1 m2, n.apply (some v) metadata = effect.ok m1 ∧
            app.metadata_change_callback m1 p = effect.ok m2 ∧
            handle_POST app req store metadata n t =
              { flow := flow_t.returned (http_res_t.http_json_res (n.render m2)),
                store := app.metadata_change_handler.update store m2, metadata := m2,
                trace := t ++ [event_t.apply (some v) none,
                  event_t.logINF (log_line.applying_data
                    (absolute_change_block { val := some v } req.resource).1),
                  event_t.metadata_change_callback m1 p none,
                  event_t.update m2] }))))))) := by
  by_cases hgate : app.NDEBUG = true ∧ (verify_content_type req "application/json").1 = false
  · exact Or.inl ⟨hgate.1, hgate.2, by simp [handle_POST, hgate.1, hgate.2]⟩
  · have hpass : app.NDEBUG = true → (verify_content_type req "application/json").1 = true := by
      intro h
      cases hv : (verify_content_type req "application/json").1 with
      | true => rfl
      | false => exact absurd ⟨h, hv⟩ hgate
    have hif : (app.NDEBUG && !(verify_content_type req "application/json").1) = false := by
      cases hn : app.NDEBUG with
      | false => rfl
      | true => simp [hpass hn]
    refine Or.inr ⟨hpass, ?_⟩
    cases hparse : app.cJSON_Parse req.body with
    | none =>
      exact Or.inl ⟨rfl, by simp [handle_POST, hif, hparse, scoped_cJSON_t.get]⟩
    | some v =>
      refine Or.inr ⟨v, rfl, ?_⟩
      cases hprio : prioritize_distr_for_ns app.str_to_uuid req with
      | error line =>
        exact Or.inl ⟨line, rfl, by simp [handle_POST, hif, hparse, scoped_cJSON_t.get, hprio]⟩
      | ok p =>
        refine Or.inr ⟨p, rfl, ?_⟩
        rcases h1 : n.apply (some v) metadata with ⟨_ | e1, m1⟩
        · rcases h2 : app.metadata_change_callback m1 p with ⟨_ | e2, m2⟩
          · exact Or.inr (Or.inr ⟨m1, m2, rfl, h2,
              by simp [handle_POST, hif, hparse, scoped_cJSON_t.get, hprio, h1, h2]⟩)
          · exact Or.inr (Or.inl ⟨m1, e2, m2, rfl, h2,
              by simp [handle_POST, hif, hparse, scoped_cJSON_t.get, hprio, h1, h2]⟩)
        · exact Or.inl ⟨e1, m1, rfl,
            by simp [handle_POST, hif, hparse, scoped_cJSON_t.get, hprio, h1]⟩

/-- The six ways case PUT can go. In the last four `apply` is handed the null pointer:
`change` was released into `absolute_change` before. -/
theorem handle_PUT_cases {S M U : Type}
    (app : semilattice_http_app_t S M U) (req : http_req_t) (store : S) (metadata : M)
    (n : json_adapter_if_t M) (t : List (event_t M U)) :
    (app.NDEBUG = true ∧ (verify_content_type req "application/json").1 = false ∧
      handle_PUT app req store metadata n t =
        { flow := flow_t.returned
            (http_res_t.status http_status_code_t.HTTP_UNSUPPORTED_MEDIA_TYPE),
          store := store, metadata := metadata,
          trace := t ++ (verify_content_type req "application/json").2.map
            event_t.logINF }) ∨
    ((app.NDEBUG = true → (verify_content_type req "application/json").1 = true) ∧
      ((app.cJSON_Parse req.body = none ∧
        handle_PUT app req store metadata n t =
          { flow := flow_t.returned (http_res_t.status http_status_code_t.HTTP_BAD_REQUEST),
            store := store, metadata := metadata,
            trace := t ++ [event_t.logINF
              (log_line.body_failed_to_parse req.get_sanitized_body)] }) ∨
      (∃ v, app.cJSON_Parse req.body = some v ∧
        ((∃ e m1, n.reset metadata = effect.throw e m1 ∧
          handle_PUT app req store metadata n t =
            { flow := flow_t.threw e, store := store, metadata := m1,
              trace := t ++ [event_t.logINF (log_line.applying_data
                  (absolute_change_block { val := some v } req.resource).1),
                event_t.reset (some e)] }) ∨
        (∃ m1 e m2, n.reset metadata = effect.ok m1 ∧
          n.apply none m1 = effect.throw e m2 ∧
          handle_PUT app req store metadata n t =
            { flow := flow_t.threw e, store := store, metadata := m2,
              trace := t ++ [event_t.logINF (log_line.applying_data
                  (absolute_change_block { val := some v } req.resource).1),
                event_t.reset none, event_t.apply none (some e)] }) ∨
        (∃ m1 m2 e m3, n.reset metadata = effect.ok m1 ∧
          n.apply none m1 = effect.ok m2 ∧
          app.metadata_change_callback m2 (defaulting_map_t.mk_default false) =
            effect.throw e m3 ∧
          handle_PUT app req store metadata n t =
            { flow := flow_t.threw e, store := store, metadata := m3,
              trace := t ++ [event_t.logINF (log_line.applying_data
                  (absolute_change_block { val := some v } req.resource).1),
                event_t.reset none, event_t.apply none none,
                event_t.metadata_change_callback m2 (defaulting_map_t.mk_default false)
                  (some e)] }) ∨
        (∃ m1 m2 m3, n.reset metadata = effect.ok m1 ∧
          n.apply none m1 = effect.ok m2 ∧
          app.metadata_change_callback m2 (defaulting_map_t.mk_default false) =
            effect.ok m3 ∧
          handle_PUT app req store metadata n t =
            { flow := flow_t.returned (http_res_t.http_json_res (n.render m3)),
              store := app.metadata_change_handler.update store m3, metadata := m3,
              trace := t ++ [event_t.logINF (log_line.applying_data
                  (absolute_change_block { val := some v } req.resource).1),
                event_t.reset none, event_t.apply none none,
                event_t.metadata_change_callback m2 (defaulting_map_t.mk_default false)
                  none,
                event_t.update m3] }))))) := by
  by_cases hgate : app.NDEBUG = true ∧ (verify_content_type req "application/json").1 = false
  · exact Or.inl ⟨hgate.1, hgate.2, by simp [handle_PUT, hgate.1, hgate.2]⟩
  · have hpass : app.NDEBUG = true → (verify_content_type req "application/json").1 = true := by
      intro h
      cases hv : (verify_content_type req "application/json").1 with
      | true => rfl
      | false => exact absurd ⟨h, hv⟩ hgate
    have hif : (app.NDEBUG && !(verify_content_type req "application/json").1) = false := by
      cases hn : app.NDEBUG with
      | false => rfl
      | true => simp [hpass hn]
    refine Or.inr ⟨hpass, ?_⟩
    cases hparse : app.cJSON_Parse req.body with
    | none =>
      exact Or.inl ⟨rfl, by simp [handle_PUT, hif, hparse, scoped_cJSON_t.get]⟩
    | some v =>
      refine Or.inr ⟨v, rfl, ?_⟩
      have hrel : (absolute_change_block { val := some v } req.resource).2 = { val := none } := rfl
      rcases h1 : n.reset metadata with ⟨_ | e1, m1⟩
      · rcases h2 : n.apply none m1 with ⟨_ | e2, m2⟩
        · rcases h3 : app.metadata_change_callback m2 (defaulting_map_t.mk_default false)
            with ⟨_ | e3, m3⟩
          · exact Or.inr (Or.inr (Or.inr ⟨m1, m2, m3, rfl, h2, h3,
              by simp [handle_PUT, hif, hparse, scoped_cJSON_t.get, hrel, h1, h2, h3]⟩))
          · exact Or.inr (Or.inr (Or.inl ⟨m1, m2, e3, m3, rfl, h2, h3,
              by simp [handle_PUT, hif, hparse, scoped_cJSON_t.get, hrel, h1, h2, h3]⟩))
        · exact Or.inr (Or.inl ⟨m1, e2, m2, rfl, h2,
            by simp [handle_PUT, hif, hparse, scoped_cJSON_t.get, hrel, h1, h2]⟩)
      · exact Or.inl ⟨e1, m1, rfl,
          by simp [handle_PUT, hif, hparse, scoped_cJSON_t.get, hrel, h1]⟩

/-- Within the `try` block an event carries an exception only if that exception leaves
the block. -/
theorem handle_try_thrown {S M U : Type} [DecidableEq U]
    (app : semilattice_http_app_t S M U) (req : http_req_t) (store : S) :
    ∀ ev ∈ (handle_try app req store).trace, ∀ e, ev.thrown = some e →
      (handle_try app req store).flow = flow_t.threw e := by
  intro ev hev e he
  cases htr : traverse (app.json_ctx_adapter_t { us := app.us })
      (app.metadata_change_handler.get store) req.resource with
  | none =>
    rw [handle_try_of_traverse_none _ _ _ htr] at hev
    simp only [List.mem_singleton] at hev
    subst hev
    simp [event_t.thrown] at he
  | some n =>
    rw [handle_try_of_traverse_some _ _ _ n htr] at hev ⊢
    cases hm : req.method <;> simp only [hm] at hev ⊢
    case POST =>
      rcases handle_POST_cases app req store (app.metadata_change_handler.get store) n
        [event_t.get] with
        ⟨_, _, h⟩ | ⟨_, ⟨_, h⟩ | ⟨v, _, ⟨line, _, h⟩ | ⟨p, _, ⟨e1, m1, _, h⟩ |
          ⟨m1, e2, m2, _, _, h⟩ | ⟨m1, m2, _, _, h⟩⟩⟩⟩
      all_goals rw [h] at hev ⊢
      all_goals simp only [List.mem_append, List.mem_cons, List.mem_singleton, List.mem_map,
        List.not_mem_nil, or_false, false_or] at hev
      · rcases hev with rfl | ⟨line, -, rfl⟩ <;> simp [event_t.thrown] at he
      all_goals rcases hev with rfl | rfl | rfl | rfl | rfl
      all_goals simp [event_t.thrown] at he ⊢
      all_goals exact he
    case PUT =>
      rcases handle_PUT_cases app req store (app.metadata_change_handler.get store) n
        [event_t.get] with
        ⟨_, _, h⟩ | ⟨_, ⟨_, h⟩ | ⟨v, _, ⟨e1, m1, _, h⟩ | ⟨m1, e2, m2, _, _, h⟩ |
          ⟨m1, m2, e3, m3, _, _, _, h⟩ | ⟨m1, m2, m3, _, _, _, h⟩⟩⟩
      all_goals rw [h] at hev ⊢
      all_goals simp only [List.mem_append, List.mem_cons, List.mem_singleton, List.mem_map,
        List.not_mem_nil, or_false, false_or] at hev
      · rcases hev with rfl | ⟨line, -, rfl⟩ <;> simp [event_t.thrown] at he
      all_goals rcases hev with rfl | rfl | rfl | rfl | rfl | rfl
      all_goals simp [event_t.thrown] at he ⊢
      all_goals exact he
    case DELETE =>
      rcases handle_DELETE_cases app req store (app.metadata_change_handler.get store) n
        [event_t.get] with
        ⟨e1, m1, _, h⟩ | ⟨m1, e2, m2, _, _, h⟩ | ⟨m1, m2, _, _, h⟩
      all_goals rw [h] at hev ⊢
      all_goals simp only [List.mem_append, List.mem_cons, List.mem_singleton, List.mem_map,
        List.not_mem_nil, or_false, false_or] at hev
      all_goals rcases hev with rfl | rfl | rfl | rfl | rfl
      all_goals simp [event_t.thrown] at he ⊢
      all_goals exact he
    all_goals
      simp only [List.mem_singleton] at hev
      subst hev
      simp [event_t.thrown] at he

theorem handle_of_returned {S M U : Type} [DecidableEq U]
    (app : semilattice_http_app_t S M U) (req : http_req_t) (store : S) (res : http_res_t)
    (h : (handle_try app req store).flow = flow_t.returned res) :
    handle app req store = handle_try app req store := by
  simp only [handle, h]

theorem handle_of_threw {S M U : Type} [DecidableEq U]
    (app : semilattice_http_app_t S M U) (req : http_req_t) (store : S) (e : exc_t)
    (h : (handle_try app req store).flow = flow_t.threw e) :
    (handle app req store).flow =
        (match error_response e with
          | some res => flow_t.returned res
          | none => flow_t.threw e) ∧
      (handle app req store).store = (handle_try app req store).store ∧
      (handle app req store).metadata = (handle_try app req store).metadata ∧
      (handle app req store).trace = (handle_try app req store).trace ++
        (if e.is_domain = true then [event_t.logINF (log_line.request_threw e)] else []) := by
  simp only [handle, h]
  cases e <;> simp [error_response, exc_t.is_domain, h]

/-- The catch clauses add at most a log line to the trace and leave the store alone. -/
theorem handle_trace_store {S M U : Type} [DecidableEq U]
    (app : semilattice_http_app_t S M U) (req : http_req_t) (store : S) :
    (handle app req store).store = (handle_try app req store).store ∧
      ((handle app req store).trace = (handle_try app req store).trace ∨
        ∃ e, (handle app req store).trace =
          (handle_try app req store).trace ++ [event_t.logINF (log_line.request_threw e)]) := by
  cases hf : (handle_try app req store).flow with
  | returned res =>
    rw [handle_of_returned app req store res hf]
    exact ⟨rfl, Or.inl rfl⟩
  | threw e =>
    obtain ⟨_, hs, _, ht⟩ := handle_of_threw app req store e hf
    refine ⟨hs, ?_⟩
    cases hd : e.is_domain with
    | false => left; simpa [hd] using ht
    | true => right; exact ⟨e, by simpa [hd] using ht⟩

/-- An event of the whole run that is a call (not a log line) is an event of the `try`
block. -/
theorem mem_handle_try_of_mem_handle {S M U : Type} [DecidableEq U]
    (app : semilattice_http_app_t S M U) (req : http_req_t) (store : S)
    (ev : event_t M U) (hev : ev ∈ (handle app req store).trace)
    (hlog : ∀ line, ev ≠ event_t.logINF line) :
    ev ∈ (handle_try app req store).trace := by
  rcases (handle_trace_store app req store).2 with h | ⟨e, h⟩
  · rwa [h] at hev
  · rw [h] at hev
    simp only [List.mem_append, List.mem_singleton] at hev
    rcases hev with hev | hev
    · exact hev
    · exact absurd hev (hlog _)

/-- In the cases PUT and DELETE every callback event carries the all-false default map. -/
theorem handle_try_PUT_DELETE_callback {S M U : Type} [DecidableEq U]
    (app : semilattice_http_app_t S M U) (req : http_req_t) (store : S)
    (hmethod : req.method = http_method_t.PUT ∨ req.method = http_method_t.DELETE)
    (m : M) (p : defaulting_map_t U Bool) (thrown : Option exc_t)
    (hev : event_t.metadata_change_callback m p thrown ∈ (handle_try app req store).trace) :
    p = defaulting_map_t.mk_default false := by
  cases htr : traverse (app.json_ctx_adapter_t { us := app.us })
      (app.metadata_change_handler.get store) req.resource with
  | none =>
    rw [handle_try_of_traverse_none _ _ _ htr] at hev
    simp at hev
  | some n =>
    rw [handle_try_of_traverse_some _ _ _ n htr] at hev
    rcases hmethod with hm | hm <;> simp only [hm] at hev
    · rcases handle_PUT_cases app req store (app.metadata_change_handler.get store) n
        [event_t.get] with
        ⟨_, _, h⟩ | ⟨_, ⟨_, h⟩ | ⟨v, _, ⟨e1, m1, _, h⟩ | ⟨m1, e2, m2, _, _, h⟩ |
          ⟨m1, m2, e3, m3, _, _, _, h⟩ | ⟨m1, m2, m3, _, _, _, h⟩⟩⟩
      all_goals rw [h] at hev
      all_goals simp at hev
      all_goals exact hev.2.1
    · rcases handle_DELETE_cases app req store (app.metadata_change_handler.get store) n
        [event_t.get] with
        ⟨e1, m1, _, h⟩ | ⟨m1, e2, m2, _, _, h⟩ | ⟨m1, m2, _, _, h⟩
      all_goals rw [h] at hev
      all_goals simp at hev
      all_goals exact hev.2.1

/-- In the case POST every callback event carries the map the parameter parser built. -/
theorem handle_try_POST_callback {S M U : Type} [DecidableEq U]
    (app : semilattice_http_app_t S M U) (req : http_req_t) (store : S)
    (hmethod : req.method = http_method_t.POST)
    (m : M) (p : defaulting_map_t U Bool) (thrown : Option exc_t)
    (hev : event_t.metadata_change_callback m p thrown ∈ (handle_try app req store).trace) :
    prioritize_distr_for_ns app.str_to_uuid req = Except.ok p := by
  cases htr : traverse (app.json_ctx_adapter_t { us := app.us })
      (app.metadata_change_handler.get store) req.resource with
  | none =>
    rw [handle_try_of_traverse_none _ _ _ htr] at hev
    simp at hev
  | some n =>
    rw [handle_try_of_traverse_some _ _ _ n htr] at hev
    simp only [hmethod] at hev
    rcases handle_POST_cases app req store (app.metadata_change_handler.get store) n
      [event_t.get] with
      ⟨_, _, h⟩ | ⟨_, ⟨_, h⟩ | ⟨v, _, ⟨line, _, h⟩ | ⟨p0, hp, ⟨e1, m1, _, h⟩ |
        ⟨m1, e2, m2, _, _, h⟩ | ⟨m1, m2, _, _, h⟩⟩⟩⟩
    all_goals rw [h] at hev
    all_goals simp at hev
    all_goals rw [hp, hev.2.1]

/-- The namespace id of a path that starts with a tag and a UUID. -/
theorem get_resource_namespace_of_tag {U : Type} (str_to_uuid : String → Option U)
    (tag ns : String) (rest : List String) (u : U)
    (htag : tag ∈ namespace_tags) (hns : str_to_uuid ns = some u) :
    get_resource_namespace str_to_uuid (tag :: ns :: rest) = Except.ok u := by
  simp only [namespace_tags, List.mem_cons, List.mem_singleton, List.not_mem_nil,
    or_false] at htag
  rcases htag with rfl | rfl | rfl <;> simp [get_resource_namespace, hns]

/-- Lookup in a map with default false and the single entry `u` set true. -/
theorem get_set_mk_default_false {U : Type} [DecidableEq U] (u k : U) :
    ((defaulting_map_t.mk_default false : defaulting_map_t U Bool).set u true).get k = true ↔
      k = u := by
  by_cases h : u = k
  · subst h
    simp [defaulting_map_t.get, defaulting_map_t.set, defaulting_map_t.mk_default]
  · have h2 : ¬ k = u := fun hk => h hk.symm
    simp [defaulting_map_t.get, defaulting_map_t.set, defaulting_map_t.mk_default, h, h2]

/-- The gate on the content type is open when the check passes or is not compiled in. -/
theorem content_type_gate_open {S M U : Type} (app : semilattice_http_app_t S M U)
    (req : http_req_t)
    (h : app.NDEBUG = true → (verify_content_type req "application/json").1 = true) :
    (app.NDEBUG && !(verify_content_type req "application/json").1) = false := by
  cases hn : app.NDEBUG with
  | false => rfl
  | true => simp [h hn]

/-- The parameter parser succeeds when the parameter is absent, `none`, `all`, or
`changed_only` on a path that starts with a namespace tag and a UUID. -/
theorem prioritize_distr_for_ns_of_valid {U : Type} [DecidableEq U]
    (str_to_uuid : String → Option U) (req : http_req_t)
    (h : req.find_query_param "prefer_distribution" = none ∨
      req.find_query_param "prefer_distribution" = some "none" ∨
      req.find_query_param "prefer_distribution" = some "all" ∨
      (req.find_query_param "prefer_distribution" = some "changed_only" ∧
        ∃ tag ns rest u, req.resource = tag :: ns :: rest ∧ tag ∈ namespace_tags ∧
          str_to_uuid ns = some u)) :
    ∃ p, prioritize_distr_for_ns str_to_uuid req = Except.ok p := by
  rcases h with h | h | h | ⟨h, tag, ns, rest, u, hres, htag, hns⟩
  · exact ⟨defaulting_map_t.mk_default false, by simp only [prioritize_distr_for_ns, h]⟩
  · exact ⟨defaulting_map_t.mk_default false,
      by simp only [prioritize_distr_for_ns, h, if_true]⟩
  · have hne : ¬ ("all" = "none") := by decide
    exact ⟨defaulting_map_t.mk_default true,
      by simp only [prioritize_distr_for_ns, h, hne, if_false, if_true]⟩
  · have h1 : ¬ ("changed_only" = "none") := by decide
    have h2 : ¬ ("changed_only" = "all") := by decide
    exact ⟨(defaulting_map_t.mk_default false).set u true,
      by simp only [prioritize_distr_for_ns, h, h1, h2, if_false, if_true, hres,
        get_resource_namespace_of_tag str_to_uuid tag ns rest u htag hns]⟩

/-- A merge-update that stops before `apply` performs no reset, apply, erase, callback or
commit and leaves the store alone. Stated for the three early exits of case POST. -/
theorem handle_POST_early_exit {S M U : Type} [DecidableEq U]
    (app : semilattice_http_app_t S M U) (req : http_req_t) (store : S)
    (hmethod : req.method = http_method_t.POST)
    (hstop : ∀ p, prioritize_distr_for_ns app.str_to_uuid req ≠ Except.ok p) :
    (∀ ev ∈ (handle app req store).trace, ev.is_mutation = false) ∧
      (handle app req store).store = store ∧
      (∀ n, resolves_to (app.metadata_change_handler.get store)
          (app.json_ctx_adapter_t { us := app.us }) req.resource n →
        ((app.NDEBUG = true → (verify_content_type req "application/json").1 = true) →
          (handle app req store).flow =
            flow_t.returned (http_res_t.status http_status_code_t.HTTP_BAD_REQUEST)) ∧
        (app.NDEBUG = true → (verify_content_type req "application/json").1 = false →
          (handle app req store).flow =
            flow_t.returned
              (http_res_t.status http_status_code_t.HTTP_UNSUPPORTED_MEDIA_TYPE))) ∧
      (walks_off (app.metadata_change_handler.get store)
          (app.json_ctx_adapter_t { us := app.us }) req.resource →
        (handle app req store).flow =
          flow_t.returned (http_res_t.status http_status_code_t.HTTP_NOT_FOUND)) := by
  cases htr : traverse (app.json_ctx_adapter_t { us := app.us })
      (app.metadata_change_handler.get store) req.resource with
  | none =>
    have ht := handle_try_of_traverse_none app req store htr
    have hh : handle app req store = handle_try app req store :=
      handle_of_returned app req store _ (by rw [ht])
    rw [hh, ht]
    refine ⟨?_, rfl, ?_, fun _ => rfl⟩
    · intro ev hev
      simp only [List.mem_singleton] at hev
      subst hev
      rfl
    · intro n hn
      rw [(traverse_eq_some_iff _ _ _ _).2 hn] at htr
      cases htr
  | some n =>
    have ht := handle_try_of_traverse_some app req store n htr
    simp only [hmethod] at ht
    have hoff : ¬ walks_off (app.metadata_change_handler.get store)
        (app.json_ctx_adapter_t { us := app.us }) req.resource := by
      intro hw
      rw [(traverse_eq_none_iff _ _ _).2 hw] at htr
      cases htr
    have hn : ∀ n0, resolves_to (app.metadata_change_handler.get store)
        (app.json_ctx_adapter_t { us := app.us }) req.resource n0 → n0 = n := by
      intro n0 h0
      rw [(traverse_eq_some_iff _ _ _ _).2 h0] at htr
      cases htr
      rfl
    rcases handle_POST_cases app req store (app.metadata_change_handler.get store) n
      [event_t.get] with
      ⟨hnd, hv, h⟩ | ⟨hpass, ⟨_, h⟩ | ⟨v, _, ⟨line, _, h⟩ | ⟨p, hp, _⟩⟩⟩
    · rw [h] at ht
      have hh : handle app req store = handle_try app req store :=
        handle_of_returned app req store _ (by rw [ht])
      rw [hh, ht]
      refine ⟨?_, rfl, ?_, fun hw => absurd hw hoff⟩
      · intro ev hev
        simp only [List.mem_append, List.mem_singleton, List.mem_map] at hev
        rcases hev with rfl | ⟨line, _, rfl⟩ <;> rfl
      · intro _ _
        refine ⟨fun hc => ?_, fun _ _ => rfl⟩
        rw [hc hnd] at hv
        cases hv
    · rw [h] at ht
      have hh : handle app req store = handle_try app req store :=
        handle_of_returned app req store _ (by rw [ht])
      rw [hh, ht]
      refine ⟨?_, rfl, ?_, fun hw => absurd hw hoff⟩
      · intro ev hev
        simp only [List.mem_append, List.mem_singleton] at hev
        rcases hev with rfl | rfl <;> rfl
      · intro _ _
        refine ⟨fun _ => rfl, fun hc hv => ?_⟩
        rw [hpass hc] at hv
        cases hv
    · rw [h] at ht
      have hh : handle app req store = handle_try app req store :=
        handle_of_returned app req store _ (by rw [ht])
      rw [hh, ht]
      refine ⟨?_, rfl, ?_, fun hw => absurd hw hoff⟩
      · intro ev hev
        simp only [List.mem_append, List.mem_singleton] at hev
        rcases hev with rfl | rfl <;> rfl
      · intro _ _
        refine ⟨fun _ => rfl, fun hc hv => ?_⟩
        rw [hpass hc] at hv
        cases hv
    · exact absurd hp (hstop p)

/-- An unrecognised literal makes the parameter parser fail. -/
theorem prioritize_distr_for_ns_of_invalid {U : Type} [DecidableEq U]
    (str_to_uuid : String → Option U) (req : http_req_t) (value : String)
    (hparam : req.find_query_param "prefer_distribution" = some value)
    (h1 : value ≠ "none") (h2 : value ≠ "all") (h3 : value ≠ "changed_only") :
    ∀ p, prioritize_distr_for_ns str_to_uuid req ≠ Except.ok p := by
  intro p hp
  simp [prioritize_distr_for_ns, hparam, h1, h2, h3] at hp

/-- When `get_resource_namespace` returns an id, the path starts with a tag and a UUID. -/
theorem get_resource_namespace_ok_iff {U : Type} (str_to_uuid : String → Option U)
    (resource : List String) (u : U) :
    get_resource_namespace str_to_uuid resource = Except.ok u ↔
      ∃ tag ns rest, resource = tag :: ns :: rest ∧ tag ∈ namespace_tags ∧
        str_to_uuid ns = some u := by
  constructor
  · intro h
    match resource, h with
    | [], h => simp [get_resource_namespace] at h
    | [tag], h =>
      simp only [get_resource_namespace] at h
      split at h <;> cases h
    | tag :: ns :: rest, h =>
      simp only [get_resource_namespace] at h
      split at h
      · cases h
      · rename_i htag
        cases hns : str_to_uuid ns with
        | none => simp [hns] at h
        | some id =>
          simp only [hns, Except.ok.injEq] at h
          subst h
          refine ⟨tag, ns, rest, rfl, ?_, hns⟩
          simp only [namespace_tags, List.mem_cons, List.mem_singleton, List.not_mem_nil,
            or_false]
          by_contra hc
          exact htag ⟨fun h1 => hc (Or.inl h1), fun h2 => hc (Or.inr (Or.inl h2)),
            fun h3 => hc (Or.inr (Or.inr h3))⟩
  · rintro ⟨tag, ns, rest, rfl, htag, hns⟩
    exact get_resource_namespace_of_tag str_to_uuid tag ns rest u htag hns

/-- With `changed_only` on a path without namespace id the parameter parser fails. -/
theorem prioritize_distr_for_ns_of_changed_only {U : Type} [DecidableEq U]
    (str_to_uuid : String → Option U) (req : http_req_t)
    (hparam : req.find_query_param "prefer_distribution" = some "changed_only")
    (hfail : ∀ u, get_resource_namespace str_to_uuid req.resource ≠ Except.ok u) :
    ∀ p, prioritize_distr_for_ns str_to_uuid req ≠ Except.ok p := by
  intro p hp
  have h1 : ¬ ("changed_only" = "none") := by decide
  have h2 : ¬ ("changed_only" = "all") := by decide
  simp only [prioritize_distr_for_ns, hparam, h1, h2, if_false, if_true] at hp
  cases hg : get_resource_namespace str_to_uuid req.resource with
  | ok u => exact hfail u hg
  | error e => simp [hg] at hp

/-- In the case PUT every apply event carries the null pointer. -/
theorem handle_try_PUT_apply {S M U : Type} [DecidableEq U]
    (app : semilattice_http_app_t S M U) (req : http_req_t) (store : S)
    (hmethod : req.method = http_method_t.PUT)
    (change : Option cJSON) (thrown : Option exc_t)
    (hev : event_t.apply change thrown ∈ (handle_try app req store).trace) :
    change = none := by
  cases htr : traverse (app.json_ctx_adapter_t { us := app.us })
      (app.metadata_change_handler.get store) req.resource with
  | none =>
    rw [handle_try_of_traverse_none _ _ _ htr] at hev
    simp at hev
  | some n =>
    rw [handle_try_of_traverse_some _ _ _ n htr] at hev
    simp only [hmethod] at hev
    rcases handle_PUT_cases app req store (app.metadata_change_handler.get store) n
      [event_t.get] with
      ⟨_, _, h⟩ | ⟨_, ⟨_, h⟩ | ⟨v, _, ⟨e1, m1, _, h⟩ | ⟨m1, e2, m2, _, _, h⟩ |
        ⟨m1, m2, e3, m3, _, _, _, h⟩ | ⟨m1, m2, m3, _, _, _, h⟩⟩⟩
    all_goals rw [h] at hev
    all_goals simp at hev
    all_goals exact hev.1

/-- A beginning of the trace of the `try` block is a beginning of the trace of the
whole run. -/
theorem handle_trace_begins {S M U : Type} [DecidableEq U]
    (app : semilattice_http_app_t S M U) (req : http_req_t) (store : S)
    (l rest : List (event_t M U))
    (h : (handle_try app req store).trace = l ++ rest) :
    ∃ rest0, (handle app req store).trace = l ++ rest0 := by
  rcases (handle_trace_store app req store).2 with h0 | ⟨e, h0⟩
  · exact ⟨rest, by rw [h0, h]⟩
  · exact ⟨rest ++ [event_t.logINF (log_line.request_threw e)], by
      rw [h0, h, List.append_assoc]⟩

/-- The value the logging block prints is the nesting of the body along the path. -/
theorem absolute_change_block_fst (body : cJSON) (resource : List String) :
    (absolute_change_block { val := some body } resource).1 =
      some (nested_change resource body) := by
  have key : ∀ parts : List String,
      parts.foldr
        (fun (jt : String) (absolute_change : scoped_cJSON_t) =>
          (absolute_change.release.2.reset (some cJSON_CreateObject)).AddItemToObject jt
            absolute_change.release.1)
        ({ val := some body } : scoped_cJSON_t) =
      { val := some (nested_change parts body) } := by
    intro parts
    induction parts with
    | nil => rfl
    | cons segment rest ih =>
      simp only [List.foldr_cons, ih]
      rfl
  simp only [absolute_change_block, List.foldl_reverse, scoped_cJSON_t.release]
  exact congrArg scoped_cJSON_t.val (key resource)

/-- The model of `boost::istarts_with` decides the case-blind beginning. -/
theorem istarts_with_iff (value expected : String) :
    istarts_with value expected = true ↔ starts_with_ignoring_case value expected := by
  simp only [istarts_with, List.isPrefixOf_iff_prefix, starts_with_ignoring_case]
  constructor
  · rintro ⟨t, ht⟩
    obtain ⟨l1, l2, hsplit, h1, _⟩ := List.map_eq_append_iff.1 ht.symm
    exact ⟨l1, l2, hsplit, h1⟩
  · rintro ⟨beginning, rest, hsplit, hb⟩
    exact ⟨rest.map Char.toLower, by rw [hsplit, List.map_append, hb]⟩

/-- In the cases POST and PUT every line that logs applied data carries the value the
logging block builds from the parsed body. -/
theorem handle_try_applying_data {S M U : Type} [DecidableEq U]
    (app : semilattice_http_app_t S M U) (req : http_req_t) (store : S)
    (body : cJSON) (hbody : app.cJSON_Parse req.body = some body)
    (x : Option cJSON)
    (hev : event_t.logINF (log_line.applying_data x) ∈ (handle_try app req store).trace) :
    x = (absolute_change_block { val := some body } req.resource).1 := by
  cases htr : traverse (app.json_ctx_adapter_t { us := app.us })
      (app.metadata_change_handler.get store) req.resource with
  | none =>
    rw [handle_try_of_traverse_none _ _ _ htr] at hev
    simp at hev
  | some n =>
    rw [handle_try_of_traverse_some _ _ _ n htr] at hev
    cases hm : req.method <;> simp only [hm] at hev
    case POST =>
      rcases handle_POST_cases app req store (app.metadata_change_handler.get store) n
        [event_t.get] with
        ⟨_, hv, h⟩ | ⟨_, ⟨_, h⟩ | ⟨v, hv0, ⟨line, hl, h⟩ | ⟨p, _, ⟨e1, m1, _, h⟩ |
          ⟨m1, e2, m2, _, _, h⟩ | ⟨m1, m2, _, _, h⟩⟩⟩⟩
      · rw [h] at hev
        simp only [List.mem_append, List.mem_singleton, List.mem_map] at hev
        rcases hev with hev | ⟨line, hline, hev⟩
        · cases hev
        · simp only [verify_content_type] at hline
          split at hline
          · simp only [List.mem_singleton] at hline
            subst hline
            cases hev
          · split at hline
            · simp only [List.mem_singleton] at hline
              subst hline
              cases hev
            · simp at hline
      · rw [h] at hev
        simp at hev
      · rw [h] at hev
        simp only [List.mem_append, List.mem_singleton] at hev
        rcases hev with hev | hev
        · cases hev
        · simp only [prioritize_distr_for_ns] at hl
          injection hev with hev
          subst hev
          split at hl
          · cases hl
          · split at hl
            · cases hl
            · split at hl
              · cases hl
              · split at hl
                · split at hl
                  · cases hl
                  · cases hl
                · cases hl
      all_goals
        rw [hbody] at hv0
        cases hv0
        rw [h] at hev
        simp at hev
      all_goals exact hev
    case PUT =>
      rcases handle_PUT_cases app req store (app.metadata_change_handler.get store) n
        [event_t.get] with
        ⟨_, hv, h⟩ | ⟨_, ⟨_, h⟩ | ⟨v, hv0, ⟨e1, m1, _, h⟩ | ⟨m1, e2, m2, _, _, h⟩ |
          ⟨m1, m2, e3, m3, _, _, _, h⟩ | ⟨m1, m2, m3, _, _, _, h⟩⟩⟩
      · rw [h] at hev
        simp only [List.mem_append, List.mem_singleton, List.mem_map] at hev
        rcases hev with hev | ⟨line, hline, hev⟩
        · cases hev
        · simp only [verify_content_type] at hline
          split at hline
          · simp only [List.mem_singleton] at hline
            subst hline
            cases hev
          · split at hline
            · simp only [List.mem_singleton] at hline
              subst hline
              cases hev
            · simp at hline
      · rw [h] at hev
        simp at hev
      all_goals
        rw [hbody] at hv0
        cases hv0
        rw [h] at hev
        simp at hev
      all_goals exact hev
    case DELETE =>
      rcases handle_DELETE_cases app req store (app.metadata_change_handler.get store) n
        [event_t.get] with
        ⟨e1, m1, _, h⟩ | ⟨m1, e2, m2, _, _, h⟩ | ⟨m1, m2, _, _, h⟩
      all_goals
        rw [h] at hev
        simp at hev
    all_goals simp at hev

/-- The two ways the `try` block can end. Either nothing was committed: the store is as
before, the trace holds no commit and no callback that returned normally. Or the path
resolved to a node `n` and the trace ends with a callback that returned normally and the
one commit of the document it left; before them nothing was committed, no callback was
called and no call threw; the response renders `n` on the committed document. -/
theorem handle_try_outcome {S M U : Type} [DecidableEq U]
    (app : semilattice_http_app_t S M U) (req : http_req_t) (store : S) :
    ((handle_try app req store).store = store ∧
      (∀ ev ∈ (handle_try app req store).trace, ev.is_update = false) ∧
      (∀ m p, event_t.metadata_change_callback m p none ∉
        (handle_try app req store).trace)) ∨
    (∃ n pre m1 p m2,
      traverse (app.json_ctx_adapter_t { us := app.us })
        (app.metadata_change_handler.get store) req.resource = some n ∧
      (handle_try app req store).trace =
        pre ++ [event_t.metadata_change_callback m1 p none, event_t.update m2] ∧
      app.metadata_change_callback m1 p = effect.ok m2 ∧
      (∀ ev ∈ pre, ev.thrown = none ∧ ev.is_update = false ∧
        ∀ m0 p0 t0, ev ≠ event_t.metadata_change_callback m0 p0 t0) ∧
      (handle_try app req store).flow =
        flow_t.returned (http_res_t.http_json_res (n.render m2)) ∧
      (handle_try app req store).store = app.metadata_change_handler.update store m2) := by
  cases htr : traverse (app.json_ctx_adapter_t { us := app.us })
      (app.metadata_change_handler.get store) req.resource with
  | none =>
    rw [handle_try_of_traverse_none _ _ _ htr]
    exact Or.inl ⟨rfl, by simp [event_t.is_update], by simp⟩
  | some n =>
    rw [handle_try_of_traverse_some _ _ _ n htr]
    cases hm : req.method <;> simp only [hm]
    case POST =>
      rcases handle_POST_cases app req store (app.metadata_change_handler.get store) n
        [event_t.get] with
        ⟨_, _, h⟩ | ⟨_, ⟨_, h⟩ | ⟨v, _, ⟨line, _, h⟩ | ⟨p, _, ⟨e1, m1, _, h⟩ |
          ⟨m1, e2, m2, _, _, h⟩ | ⟨m1, m2, _, hc, h⟩⟩⟩⟩
      · rw [h]
        refine Or.inl ⟨rfl, ?_, ?_⟩
        · intro ev hev
          simp only [List.mem_append, List.mem_singleton, List.mem_map] at hev
          rcases hev with rfl | ⟨line, _, rfl⟩ <;> rfl
        · intro m p hev
          simp only [List.mem_append, List.mem_singleton, List.mem_map] at hev
          rcases hev with hev | ⟨line, _, hev⟩ <;> cases hev
      · rw [h]
        exact Or.inl ⟨rfl, by simp [event_t.is_update], by simp⟩
      · rw [h]
        exact Or.inl ⟨rfl, by simp [event_t.is_update], by simp⟩
      · rw [h]
        exact Or.inl ⟨rfl, by simp [event_t.is_update], by simp⟩
      · rw [h]
        exact Or.inl ⟨rfl, by simp [event_t.is_update], by simp⟩
      · rw [h]
        refine Or.inr ⟨n, [event_t.get, event_t.apply (some v) none,
          event_t.logINF (log_line.applying_data
            (absolute_change_block { val := some v } req.resource).1)],
          m1, p, m2, rfl, by simp, hc, ?_, rfl, rfl⟩
        intro ev hev
        simp only [List.mem_cons, List.mem_singleton, List.not_mem_nil, or_false] at hev
        rcases hev with rfl | rfl | rfl <;>
          exact ⟨rfl, rfl, fun _ _ _ h0 => by cases h0⟩
    case PUT =>
      rcases handle_PUT_cases app req store (app.metadata_change_handler.get store) n
        [event_t.get] with
        ⟨_, _, h⟩ | ⟨_, ⟨_, h⟩ | ⟨v, _, ⟨e1, m1, _, h⟩ | ⟨m1, e2, m2, _, _, h⟩ |
          ⟨m1, m2, e3, m3, _, _, _, h⟩ | ⟨m1, m2, m3, _, _, hc, h⟩⟩⟩
      · rw [h]
        refine Or.inl ⟨rfl, ?_, ?_⟩
        · intro ev hev
          simp only [List.mem_append, List.mem_singleton, List.mem_map] at hev
          rcases hev with rfl | ⟨line, _, rfl⟩ <;> rfl
        · intro m p hev
          simp only [List.mem_append, List.mem_singleton, List.mem_map] at hev
          rcases hev with hev | ⟨line, _, hev⟩ <;> cases hev
      · rw [h]
        exact Or.inl ⟨rfl, by simp [event_t.is_update], by simp⟩
      · rw [h]
        exact Or.inl ⟨rfl, by simp [event_t.is_update], by simp⟩
      · rw [h]
        exact Or.inl ⟨rfl, by simp [event_t.is_update], by simp⟩
      · rw [h]
        exact Or.inl ⟨rfl, by simp [event_t.is_update], by simp⟩
      · rw [h]
        refine Or.inr ⟨n, [event_t.get,
          event_t.logINF (log_line.applying_data
            (absolute_change_block { val := some v } req.resource).1),
          event_t.reset none, event_t.apply none none],
          m2, defaulting_map_t.mk_default false, m3, rfl, by simp, hc, ?_, rfl, rfl⟩
        intro ev hev
        simp only [List.mem_cons, List.mem_singleton, List.not_mem_nil, or_false] at hev
        rcases hev with rfl | rfl | rfl | rfl <;>
          exact ⟨rfl, rfl, fun _ _ _ h0 => by cases h0⟩
    case DELETE =>
      rcases handle_DELETE_cases app req store (app.metadata_change_handler.get store) n
        [event_t.get] with
        ⟨e1, m1, _, h⟩ | ⟨m1, e2, m2, _, _, h⟩ | ⟨m1, m2, _, hc, h⟩
      · rw [h]
        exact Or.inl ⟨rfl, by simp [event_t.is_update], by simp⟩
      · rw [h]
        exact Or.inl ⟨rfl, by simp [event_t.is_update], by simp⟩
      · rw [h]
        refine Or.inr ⟨n, [event_t.get, event_t.erase none,
          event_t.logINF (log_line.deleting req.resource)],
          m1, defaulting_map_t.mk_default false, m2, rfl, by simp, hc, ?_, rfl, rfl⟩
        intro ev hev
        simp only [List.mem_cons, List.mem_singleton, List.not_mem_nil, or_false] at hev
        rcases hev with rfl | rfl | rfl <;>
          exact ⟨rfl, rfl, fun _ _ _ h0 => by cases h0⟩
    all_goals simp [event_t.is_update]

/-- Every callback event records what the callback did on its arguments. -/
theorem handle_try_callback_thrown {S M U : Type} [DecidableEq U]
    (app : semilattice_http_app_t S M U) (req : http_req_t) (store : S)
    (m : M) (p : defaulting_map_t U Bool) (thrown : Option exc_t)
    (hev : event_t.metadata_change_callback m p thrown ∈ (handle_try app req store).trace) :
    thrown = (app.metadata_change_callback m p).thrown := by
  cases htr : traverse (app.json_ctx_adapter_t { us := app.us })
      (app.metadata_change_handler.get store) req.resource with
  | none =>
    rw [handle_try_of_traverse_none _ _ _ htr] at hev
    simp at hev
  | some n =>
    rw [handle_try_of_traverse_some _ _ _ n htr] at hev
    cases hm : req.method <;> simp only [hm] at hev
    case POST =>
      rcases handle_POST_cases app req store (app.metadata_change_handler.get store) n
        [event_t.get] with
        ⟨_, _, h⟩ | ⟨_, ⟨_, h⟩ | ⟨v, _, ⟨line, _, h⟩ | ⟨p0, _, ⟨e1, m1, _, h⟩ |
          ⟨m1, e2, m2, _, hc, h⟩ | ⟨m1, m2, _, hc, h⟩⟩⟩⟩
      all_goals rw [h] at hev
      all_goals simp at hev
      all_goals
        obtain ⟨rfl, rfl, rfl⟩ := hev
        rw [hc]
        rfl
    case PUT =>
      rcases handle_PUT_cases app req store (app.metadata_change_handler.get store) n
        [event_t.get] with
        ⟨_, _, h⟩ | ⟨_, ⟨_, h⟩ | ⟨v, _, ⟨e1, m1, _, h⟩ | ⟨m1, e2, m2, _, _, h⟩ |
          ⟨m1, m2, e3, m3, _, _, hc, h⟩ | ⟨m1, m2, m3, _, _, hc, h⟩⟩⟩
      all_goals rw [h] at hev
      all_goals simp at hev
      all_goals
        obtain ⟨rfl, rfl, rfl⟩ := hev
        rw [hc]
        rfl
    case DELETE =>
      rcases handle_DELETE_cases app req store (app.metadata_change_handler.get store) n
        [event_t.get] with
        ⟨e1, m1, _, h⟩ | ⟨m1, e2, m2, _, hc, h⟩ | ⟨m1, m2, _, hc, h⟩
      all_goals rw [h] at hev
      all_goals simp at hev
      all_goals
        obtain ⟨rfl, rfl, rfl⟩ := hev
        rw [hc]
        rfl
    all_goals simp at hev

/-- The two ways a whole run can end: the ways of the `try` block, since the catch
clauses only add a log line. -/
theorem handle_outcome {S M U : Type} [DecidableEq U]
    (app : semilattice_http_app_t S M U) (req : http_req_t) (store : S) :
    ((handle app req store).store = store ∧
      (∀ ev ∈ (handle app req store).trace, ev.is_update = false) ∧
      (∀ m p, event_t.metadata_change_callback m p none ∉
        (handle app req store).trace)) ∨
    (∃ n pre m1 p m2,
      traverse (app.json_ctx_adapter_t { us := app.us })
        (app.metadata_change_handler.get store) req.resource = some n ∧
      (handle app req store).trace =
        pre ++ [event_t.metadata_change_callback m1 p none, event_t.update m2] ∧
      app.metadata_change_callback m1 p = effect.ok m2 ∧
      (∀ ev ∈ pre, ev.thrown = none ∧ ev.is_update = false ∧
        ∀ m0 p0 t0, ev ≠ event_t.metadata_change_callback m0 p0 t0) ∧
      (handle app req store).flow =
        flow_t.returned (http_res_t.http_json_res (n.render m2)) ∧
      (handle app req store).store = app.metadata_change_handler.update store m2) := by
  rcases handle_try_outcome app req store with ⟨hs, hu, hc⟩ |
    ⟨n, pre, m1, p, m2, htr, ht, hcb, hpre, hf, hs⟩
  · left
    obtain ⟨hstore, htrace⟩ := handle_trace_store app req store
    refine ⟨by rw [hstore, hs], ?_, ?_⟩
    · intro ev hev
      rcases htrace with h | ⟨e, h⟩
      · rw [h] at hev
        exact hu ev hev
      · rw [h] at hev
        simp only [List.mem_append, List.mem_singleton] at hev
        rcases hev with hev | rfl
        · exact hu ev hev
        · rfl
    · intro m p hev
      exact hc m p (mem_handle_try_of_mem_handle app req store _ hev
        (by intro line h; cases h))
  · right
    rw [handle_of_returned app req store _ hf]
    exact ⟨n, pre, m1, p, m2, htr, ht, hcb, hpre, hf, hs⟩

/-! ## The claims -/

/-- C1 (the code departs from the claim): in a replace (PUT) request `apply` is never
handed the parsed body. The block that logs `absolute_change` runs first and releases
`change`, so every call of `apply` receives the null pointer; and when the path resolves
to `n`, the body parses, the content type passes and `n.reset()` returns normally, that
call `n.apply(null)` does take place, right after the reset. -/
theorem handle_PUT_applies_null {S M U : Type} [DecidableEq U]
    (app : semilattice_http_app_t S M U) (req : http_req_t) (store : S)
    (hmethod : req.method = http_method_t.PUT) :
    (∀ change thrown, event_t.apply change thrown ∈ (handle app req store).trace →
        change = none) ∧
      ∀ n v m1,
        resolves_to (app.metadata_change_handler.get store)
          (app.json_ctx_adapter_t { us := app.us }) req.resource n →
        app.cJSON_Parse req.body = some v →
        (app.NDEBUG = true → (verify_content_type req "application/json").1 = true) →
        n.reset (app.metadata_change_handler.get store) = effect.ok m1 →
        ∃ rest, (handle app req store).trace =
          [event_t.get,
            event_t.logINF (log_line.applying_data
              (absolute_change_block { val := some v } req.resource).1),
            event_t.reset none,
            event_t.apply none (n.apply none m1).thrown] ++ rest := by
  constructor
  · intro change thrown hev
    exact handle_try_PUT_apply app req store hmethod change thrown
      (mem_handle_try_of_mem_handle app req store _ hev (by intro line h; cases h))
  · intro n v m1 hpath hbody hcontent hreset
    have ht := handle_try_of_traverse_some app req store n
      ((traverse_eq_some_iff _ _ _ _).2 hpath)
    simp only [hmethod] at ht
    have hpre : ∃ rest, (handle_try app req store).trace =
        [event_t.get,
          event_t.logINF (log_line.applying_data
            (absolute_change_block { val := some v } req.resource).1),
          event_t.reset none,
          event_t.apply none (n.apply none m1).thrown] ++ rest := by
      rw [ht]
      rcases handle_PUT_cases app req store (app.metadata_change_handler.get store) n
        [event_t.get] with
        ⟨hnd, hv, _⟩ | ⟨_, ⟨hnone, _⟩ | ⟨v0, hv0, ⟨e1, m0, hr, _⟩ | ⟨m0, e2, m2, hr, ha, h⟩ |
          ⟨m0, m2, e3, m3, hr, ha, _, h⟩ | ⟨m0, m2, m3, hr, ha, _, h⟩⟩⟩
      · rw [hcontent hnd] at hv
        cases hv
      · rw [hbody] at hnone
        cases hnone
      · rw [hreset] at hr
        cases hr
      · rw [hbody] at hv0
        cases hv0
        rw [hreset] at hr
        cases hr
        rw [h, ha]
        exact ⟨[], rfl⟩
      · rw [hbody] at hv0
        cases hv0
        rw [hreset] at hr
        cases hr
        rw [h, ha]
        exact ⟨_, rfl⟩
      · rw [hbody] at hv0
        cases hv0
        rw [hreset] at hr
        cases hr
        rw [h, ha]
        exact ⟨_, rfl⟩
    obtain ⟨rest, hrest⟩ := hpre
    rcases (handle_trace_store app req store).2 with h | ⟨e, h⟩
    · exact ⟨rest, by rw [h, hrest]⟩
    · exact ⟨rest ++ [event_t.logINF (log_line.request_threw e)], by
        rw [h, hrest, List.append_assoc]⟩

/-- C1, replacing the document `a = 1, b = 2` by the body `a = 9`, sent as JSON: the
parsed body goes to the log line, `apply` receives the null pointer after the reset, the
adapter rejects it, and the answer is an error; it is not the rendering of `a = 9`, and
the stored document is still `a = 1, b = 2`. -/
theorem handle_PUT_applies_null_witness :
    (∀ change thrown, event_t.apply change thrown ∈
        (handle (example_app true root_adapter)
          (example_req http_method_t.PUT [] "\x7b\"a\": 9\x7d" none
            (some "application/json")) example_store).trace → change = none) ∧
      (handle (example_app true root_adapter)
        (example_req http_method_t.PUT [] "\x7b\"a\": 9\x7d" none
          (some "application/json")) example_store).trace =
        [event_t.get,
          event_t.logINF (log_line.applying_data
            (some (cJSON.Object [("a", cJSON.Number 9)]))),
          event_t.reset none,
          event_t.apply none (some (exc_t.schema_mismatch_exc_t "expected an object")),
          event_t.logINF (log_line.request_threw
            (exc_t.schema_mismatch_exc_t "expected an object"))] ∧
      (handle (example_app true root_adapter)
        (example_req http_method_t.PUT [] "\x7b\"a\": 9\x7d" none
          (some "application/json")) example_store).flow ≠
        flow_t.returned (http_res_t.http_json_res
          (cJSON.Object [("a", cJSON.Number 9)])) ∧
      (handle (example_app true root_adapter)
        (example_req http_method_t.PUT [] "\x7b\"a\": 9\x7d" none
          (some "application/json")) example_store).store = [("a", 1), ("b", 2)] := by
  refine ⟨(handle_PUT_applies_null (example_app true root_adapter)
    (example_req http_method_t.PUT [] "\x7b\"a\": 9\x7d" none
      (some "application/json")) example_store rfl).1, by rfl, ?_, by rfl⟩
  have h : (handle (example_app true root_adapter)
        (example_req http_method_t.PUT [] "\x7b\"a\": 9\x7d" none
          (some "application/json")) example_store).flow =
      flow_t.returned (http_res_t.http_error_res "expected an object" none) := by rfl
  rw [h]
  simp

/-- C2, as amended: for a merge-update (POST) request whose path resolves to the node `n`,
whose body parses to `v`, whose `prefer_distribution` is absent or valid, and whose
content type passes the check where the build enforces it (`NDEBUG`), the policy map `p`
is built and `handle` calls `n.apply(v)` first, with no reset before it; when that
returns normally, the callback on the mutated document with `p`; when that returns
normally too, it commits the document the callback left, once, and answers with
`n.render()` of that document. When `apply` or the callback raises, the run ends with that
call: nothing is committed, the store is as before, and the answer is the one the catch
clauses give to the exception. -/
theorem handle_POST_applies_recomputes_commits {S M U : Type} [DecidableEq U]
    (app : semilattice_http_app_t S M U) (req : http_req_t) (store : S)
    (n : json_adapter_if_t M) (v : cJSON)
    (hmethod : req.method = http_method_t.POST)
    (hpath : resolves_to (app.metadata_change_handler.get store)
      (app.json_ctx_adapter_t { us := app.us }) req.resource n)
    (hbody : app.cJSON_Parse req.body = some v)
    (hparam : req.find_query_param "prefer_distribution" = none ∨
      req.find_query_param "prefer_distribution" = some "none" ∨
      req.find_query_param "prefer_distribution" = some "all" ∨
      (req.find_query_param "prefer_distribution" = some "changed_only" ∧
        ∃ tag ns rest u, req.resource = tag :: ns :: rest ∧ tag ∈ namespace_tags ∧
          app.str_to_uuid ns = some u))
    (hcontent : app.NDEBUG = true → (verify_content_type req "application/json").1 = true) :
    ∃ p, prioritize_distr_for_ns app.str_to_uuid req = Except.ok p ∧
      (∃ rest, (handle app req store).trace =
        [event_t.get,
          event_t.apply (some v)
            (n.apply (some v) (app.metadata_change_handler.get store)).thrown] ++ rest) ∧
      (∀ m1, n.apply (some v) (app.metadata_change_handler.get store) = effect.ok m1 →
        ∃ rest, (handle app req store).trace =
          [event_t.get, event_t.apply (some v) none,
            event_t.logINF (log_line.applying_data
              (absolute_change_block { val := some v } req.resource).1),
            event_t.metadata_change_callback m1 p
              (app.metadata_change_callback m1 p).thrown] ++ rest) ∧
      (∀ m1 m2, n.apply (some v) (app.metadata_change_handler.get store) = effect.ok m1 →
        app.metadata_change_callback m1 p = effect.ok m2 →
        handle app req store =
          { flow := flow_t.returned (http_res_t.http_json_res (n.render m2)),
            store := app.metadata_change_handler.update store m2,
            metadata := m2,
            trace := [event_t.get, event_t.apply (some v) none,
              event_t.logINF (log_line.applying_data
                (absolute_change_block { val := some v } req.resource).1),
              event_t.metadata_change_callback m1 p none,
              event_t.update m2] }) ∧
      (∀ e m1, n.apply (some v) (app.metadata_change_handler.get store) =
          effect.throw e m1 →
        (handle app req store).trace =
          [event_t.get, event_t.apply (some v) (some e)] ++
            (if e.is_domain = true then [event_t.logINF (log_line.request_threw e)]
              else []) ∧
        (handle app req store).store = store ∧
        (handle app req store).flow =
          (match error_response e with
            | some res => flow_t.returned res
            | none => flow_t.threw e)) ∧
      ∀ m1 e m2, n.apply (some v) (app.metadata_change_handler.get store) = effect.ok m1 →
        app.metadata_change_callback m1 p = effect.throw e m2 →
        (handle app req store).trace =
          [event_t.get, event_t.apply (some v) none,
            event_t.logINF (log_line.applying_data
              (absolute_change_block { val := some v } req.resource).1),
            event_t.metadata_change_callback m1 p (some e)] ++
            (if e.is_domain = true then [event_t.logINF (log_line.request_threw e)]
              else []) ∧
        (handle app req store).store = store ∧
        (handle app req store).flow =
          (match error_response e with
            | some res => flow_t.returned res
            | none => flow_t.threw e) := by
  obtain ⟨p, hp⟩ := prioritize_distr_for_ns_of_valid app.str_to_uuid req hparam
  refine ⟨p, hp, ?_⟩
  have ht := handle_try_of_traverse_some app req store n
    ((traverse_eq_some_iff _ _ _ _).2 hpath)
  simp only [hmethod] at ht
  have hcases : (∃ e m1, n.apply (some v) (app.metadata_change_handler.get store) =
        effect.throw e m1 ∧
        handle_POST app req store (app.metadata_change_handler.get store) n [event_t.get] =
          { flow := flow_t.threw e, store := store, metadata := m1,
            trace := [event_t.get] ++ [event_t.apply (some v) (some e)] }) ∨
      (∃ m1 e m2, n.apply (some v) (app.metadata_change_handler.get store) = effect.ok m1 ∧
        app.metadata_change_callback m1 p = effect.throw e m2 ∧
        handle_POST app req store (app.metadata_change_handler.get store) n [event_t.get] =
          { flow := flow_t.threw e, store := store, metadata := m2,
            trace := [event_t.get] ++ [event_t.apply (some v) none,
              event_t.logINF (log_line.applying_data
                (absolute_change_block { val := some v } req.resource).1),
              event_t.metadata_change_callback m1 p (some e)] }) ∨
      (∃ m1 m2, n.apply (some v) (app.metadata_change_handler.get store) = effect.ok m1 ∧
        app.metadata_change_callback m1 p = effect.ok m2 ∧
        handle_POST app req store (app.metadata_change_handler.get store) n [event_t.get] =
          { flow := flow_t.returned (http_res_t.http_json_res (n.render m2)),
            store := app.metadata_change_handler.update store m2, metadata := m2,
            trace := [event_t.get] ++ [event_t.apply (some v) none,
              event_t.logINF (log_line.applying_data
                (absolute_change_block { val := some v } req.resource).1),
              event_t.metadata_change_callback m1 p none,
              event_t.update m2] }) := by
    rcases handle_POST_cases app req store (app.metadata_change_handler.get store) n
      [event_t.get] with
      ⟨hnd, hv, _⟩ | ⟨_, ⟨hnone, _⟩ | ⟨v0, hv0, ⟨line, hl, _⟩ | ⟨p0, hp0, hrest⟩⟩⟩
    · rw [hcontent hnd] at hv
      cases hv
    · rw [hbody] at hnone
      cases hnone
    · rw [hp] at hl
      cases hl
    · rw [hbody] at hv0
      cases hv0
      rw [hp] at hp0
      cases hp0
      exact hrest
  refine ⟨?_, ?_, ?_, ?_, ?_⟩
  · rcases hcases with ⟨e1, m1, ha, h⟩ | ⟨m1, e2, m2, ha, _, h⟩ | ⟨m1, m2, ha, _, h⟩
    all_goals
      rw [h] at ht
      rw [ha]
      exact handle_trace_begins app req store _ _ (by rw [ht]; rfl)
  · intro m1 ha
    rcases hcases with ⟨e1, m0, ha0, h⟩ | ⟨m0, e2, m2, ha0, hc, h⟩ | ⟨m0, m2, ha0, hc, h⟩
    · rw [ha] at ha0
      cases ha0
    all_goals
      rw [ha] at ha0
      cases ha0
      rw [h] at ht
      rw [hc]
      exact handle_trace_begins app req store _ _ (by rw [ht]; rfl)
  · intro m1 m2 ha hc
    rcases hcases with ⟨e1, m0, ha0, h⟩ | ⟨m0, e2, m3, ha0, hc0, h⟩ | ⟨m0, m3, ha0, hc0, h⟩
    · rw [ha] at ha0
      cases ha0
    · rw [ha] at ha0
      cases ha0
      rw [hc] at hc0
      cases hc0
    · rw [ha] at ha0
      cases ha0
      rw [hc] at hc0
      cases hc0
      rw [h] at ht
      have hh : handle app req store = handle_try app req store :=
        handle_of_returned app req store _ (by rw [ht])
      rw [hh, ht]
      rfl
  · intro e m1 ha
    rcases hcases with ⟨e1, m0, ha0, h⟩ | ⟨m0, e2, m2, ha0, _, h⟩ | ⟨m0, m2, ha0, _, h⟩
    · rw [ha] at ha0
      cases ha0
      rw [h] at ht
      obtain ⟨hflow, hstore, _, htrace⟩ :=
        handle_of_threw app req store e (by rw [ht])
      rw [ht] at hstore htrace
      exact ⟨htrace, hstore, hflow⟩
    · rw [ha] at ha0
      cases ha0
    · rw [ha] at ha0
      cases ha0
  · intro m1 e m2 ha hc
    rcases hcases with ⟨e1, m0, ha0, h⟩ | ⟨m0, e2, m3, ha0, hc0, h⟩ | ⟨m0, m3, ha0, hc0, h⟩
    · rw [ha] at ha0
      cases ha0
    · rw [ha] at ha0
      cases ha0
      rw [hc] at hc0
      cases hc0
      rw [h] at ht
      obtain ⟨hflow, hstore, _, htrace⟩ :=
        handle_of_threw app req store e (by rw [ht])
      rw [ht] at hstore htrace
      exact ⟨htrace, hstore, hflow⟩
    · rw [ha] at ha0
      cases ha0
      rw [hc] at hc0
      cases hc0

/-- C2, on the document `a = 1, b = 2` in a build that enforces the content type: a
merge-update of the root with the body `a = 9`, sent as JSON, applies the body, hands the
callback the merged document with the all-false map, commits it and renders it; the
field `b` stays. -/
theorem handle_POST_applies_recomputes_commits_witness :
    handle (example_app true root_adapter)
        (example_req http_method_t.POST [] "\x7b\"a\": 9\x7d" none
          (some "application/json; charset=UTF-8")) example_store =
      { flow := flow_t.returned (http_res_t.http_json_res
          (cJSON.Object [("a", cJSON.Number 9), ("b", cJSON.Number 2)])),
        store := [("a", 9), ("b", 2)],
        metadata := [("a", 9), ("b", 2)],
        trace := [event_t.get,
          event_t.apply (some (cJSON.Object [("a", cJSON.Number 9)])) none,
          event_t.logINF (log_line.applying_data
            (some (cJSON.Object [("a", cJSON.Number 9)]))),
          event_t.metadata_change_callback [("a", 9), ("b", 2)]
            { default_value := false, overrides := [] } none,
          event_t.update [("a", 9), ("b", 2)]] } := by
  obtain ⟨p, hp, _, _, h, _, _⟩ := handle_POST_applies_recomputes_commits
    (example_app true root_adapter)
    (example_req http_method_t.POST [] "\x7b\"a\": 9\x7d" none
      (some "application/json; charset=UTF-8")) example_store
    root_adapter (cJSON.Object [("a", cJSON.Number 9)])
    rfl (resolves_to.here root_adapter) (by rfl) (Or.inl rfl) (fun _ => by rfl)
  have hp0 : p = { default_value := false, overrides := [] } := by
    have h0 : prioritize_distr_for_ns (example_app true root_adapter).str_to_uuid
        (example_req http_method_t.POST [] "\x7b\"a\": 9\x7d" none
          (some "application/json; charset=UTF-8")) =
        Except.ok { default_value := false, overrides := [] } := by rfl
    rw [h0] at hp
    cases hp
    rfl
  subst hp0
  exact h [("a", 9), ("b", 2)] [("a", 9), ("b", 2)] (by rfl) (by rfl)

/-- C2 as stated fails twice. In a build that enforces the content type, a merge-update
of the root whose body parses and which has no `prefer_distribution`, but no
`Content-Type` header either, is answered unsupported-media-type, and neither apply nor
the callback nor a commit takes place. And a merge-update of the root with the body
`a = true`, sent as JSON, meets every condition of the claim, yet `apply` raises
schema-mismatch: the callback is not called, nothing is committed and the answer is an
error response. -/
theorem handle_POST_sequence_counterexample :
    (example_req http_method_t.POST [] "\x7b\"a\": 9\x7d" none none).method =
        http_method_t.POST ∧
      resolves_to ((example_app true root_adapter).metadata_change_handler.get example_store)
        ((example_app true root_adapter).json_ctx_adapter_t { us := "00000000" })
        (example_req http_method_t.POST [] "\x7b\"a\": 9\x7d" none none).resource
        root_adapter ∧
      (example_app true root_adapter).cJSON_Parse
        (example_req http_method_t.POST [] "\x7b\"a\": 9\x7d" none none).body =
        some (cJSON.Object [("a", cJSON.Number 9)]) ∧
      (example_req http_method_t.POST [] "\x7b\"a\": 9\x7d" none none).find_query_param
        "prefer_distribution" = none ∧
      handle (example_app true root_adapter)
        (example_req http_method_t.POST [] "\x7b\"a\": 9\x7d" none none) example_store =
        { flow := flow_t.returned
            (http_res_t.status http_status_code_t.HTTP_UNSUPPORTED_MEDIA_TYPE),
          store := example_store,
          metadata := example_store,
          trace := [event_t.get,
            event_t.logINF (log_line.bad_content_type "application/json" "<NONE>")] } ∧
      (example_req http_method_t.POST [] "\x7b\"a\": true\x7d" none
        (some "application/json")).method = http_method_t.POST ∧
      (example_app true root_adapter).cJSON_Parse
        (example_req http_method_t.POST [] "\x7b\"a\": true\x7d" none
          (some "application/json")).body = some (cJSON.Object [("a", cJSON.True)]) ∧
      (verify_content_type
        (example_req http_method_t.POST [] "\x7b\"a\": true\x7d" none
          (some "application/json")) "application/json").1 = true ∧
      handle (example_app true root_adapter)
        (example_req http_method_t.POST [] "\x7b\"a\": true\x7d" none
          (some "application/json")) example_store =
        { flow := flow_t.returned (http_res_t.http_error_res "expected a number" none),
          store := example_store,
          metadata := example_store,
          trace := [event_t.get,
            event_t.apply (some (cJSON.Object [("a", cJSON.True)]))
              (some (exc_t.schema_mismatch_exc_t "expected a number")),
            event_t.logINF (log_line.request_threw
              (exc_t.schema_mismatch_exc_t "expected a number"))] } :=
  ⟨rfl, resolves_to.here root_adapter, by rfl, rfl, by rfl, rfl, by rfl, by rfl, by rfl⟩

/-- C3: whatever the verb, body and parameters of a request, if the walk along its path
meets a segment that is not a key of the subfields of the node reached so far, `handle`
responds not-found, the store is left as it was, and the only call made is the fetch: no
reset, apply, erase, callback or commit. -/
theorem handle_unknown_segment_not_found {S M U : Type} [DecidableEq U]
    (app : semilattice_http_app_t S M U) (req : http_req_t) (store : S)
    (h : walks_off (app.metadata_change_handler.get store)
          (app.json_ctx_adapter_t { us := app.us }) req.resource) :
    (handle app req store).flow =
        flow_t.returned (http_res_t.status http_status_code_t.HTTP_NOT_FOUND) ∧
      (handle app req store).store = store ∧
      (handle app req store).trace = [event_t.get] ∧
      ∀ ev ∈ (handle app req store).trace, ev.is_mutation = false := by
  have ht := handle_try_of_traverse_none app req store
    ((traverse_eq_none_iff _ _ _).2 h)
  have hh : handle app req store = handle_try app req store := by
    simp only [handle, ht]
  rw [hh, ht]
  refine ⟨rfl, rfl, rfl, ?_⟩
  intro ev hev
  simp only [List.mem_singleton] at hev
  subst hev
  rfl

/-- C3, at the path `["x", "y"]` against a root without a child `x`: the first segment
is already unknown, and a replace request ends not-found with the store untouched. -/
theorem handle_unknown_segment_not_found_witness :
    (root_adapter.get_subfields example_store).lookup "x" = none ∧
      ((handle (example_app false root_adapter)
          (example_req http_method_t.PUT ["x", "y"] "7" (some "all") none)
          example_store).flow =
        flow_t.returned (http_res_t.status http_status_code_t.HTTP_NOT_FOUND) ∧
      (handle (example_app false root_adapter)
          (example_req http_method_t.PUT ["x", "y"] "7" (some "all") none)
          example_store).store = example_store ∧
      (handle (example_app false root_adapter)
          (example_req http_method_t.PUT ["x", "y"] "7" (some "all") none)
          example_store).trace = [event_t.get] ∧
      ∀ ev ∈ (handle (example_app false root_adapter)
          (example_req http_method_t.PUT ["x", "y"] "7" (some "all") none)
          example_store).trace, ev.is_mutation = false) :=
  ⟨by rfl,
   handle_unknown_segment_not_found (example_app false root_adapter)
     (example_req http_method_t.PUT ["x", "y"] "7" (some "all") none) example_store
     ⟨[], "x", ["y"], root_adapter, rfl, resolves_to.here root_adapter, by rfl⟩⟩

/-- C4: the policy map a merge-update (POST) hands to the callback is determined by
`prefer_distribution`: absent or `none` gives default false and no entries (every key
looks up to false); `all` gives default true and no entries (every key looks up to true);
`changed_only` on a path whose first segment is a namespace tag and whose second segment
is the UUID `u` gives a map in which a key looks up to true exactly when it is `u`. -/
theorem handle_POST_policy_map {S M U : Type} [DecidableEq U]
    (app : semilattice_http_app_t S M U) (req : http_req_t) (store : S)
    (m : M) (p : defaulting_map_t U Bool) (thrown : Option exc_t)
    (hmethod : req.method = http_method_t.POST)
    (hev : event_t.metadata_change_callback m p thrown ∈ (handle app req store).trace) :
    ((req.find_query_param "prefer_distribution" = none ∨
        req.find_query_param "prefer_distribution" = some "none") →
        p = { default_value := false, overrides := [] } ∧ ∀ k, p.get k = false) ∧
      (req.find_query_param "prefer_distribution" = some "all" →
        p = { default_value := true, overrides := [] } ∧ ∀ k, p.get k = true) ∧
      (req.find_query_param "prefer_distribution" = some "changed_only" →
        ∀ tag ns rest u, req.resource = tag :: ns :: rest → tag ∈ namespace_tags →
          app.str_to_uuid ns = some u → ∀ k, p.get k = true ↔ k = u) := by
  have hp := handle_try_POST_callback app req store hmethod m p thrown
    (mem_handle_try_of_mem_handle app req store _ hev (by intro line h; cases h))
  refine ⟨?_, ?_, ?_⟩
  · intro hq
    have hpd : p = { default_value := false, overrides := [] } := by
      rcases hq with hq | hq
      · simp only [prioritize_distr_for_ns, hq, Except.ok.injEq] at hp
        exact hp.symm
      · simp only [prioritize_distr_for_ns, hq, if_true, Except.ok.injEq] at hp
        exact hp.symm
    subst hpd
    exact ⟨rfl, fun k => rfl⟩
  · intro hq
    have hpd : p = { default_value := true, overrides := [] } := by
      have hne : ¬ ("all" = "none") := by decide
      simp only [prioritize_distr_for_ns, hq, hne, if_false, if_true, Except.ok.injEq] at hp
      exact hp.symm
    subst hpd
    exact ⟨rfl, fun k => rfl⟩
  · intro hq tag ns rest u hres htag hns k
    have h1 : ¬ ("changed_only" = "none") := by decide
    have h2 : ¬ ("changed_only" = "all") := by decide
    simp only [prioritize_distr_for_ns, hq, h1, h2, if_false, if_true, hres,
      get_resource_namespace_of_tag app.str_to_uuid tag ns rest u htag hns,
      Except.ok.injEq] at hp
    rw [← hp]
    exact get_set_mk_default_false u k

/-- C4, on the namespace `12345678`: a merge-update of `["rdb_namespaces", "12345678"]`
with `prefer_distribution=changed_only` hands the callback a map that is true at
`12345678` and nowhere else. -/
theorem handle_POST_policy_map_witness :
    event_t.metadata_change_callback [("12345678", 7)]
        { default_value := false, overrides := [("12345678", true)] } none ∈
        (handle (example_app true cluster_adapter)
          (example_req http_method_t.POST ["rdb_namespaces", "12345678"] "7"
            (some "changed_only") (some "application/json"))
          [("12345678", 1)]).trace ∧
      ∀ k : String,
        (defaulting_map_t.get { default_value := false, overrides := [("12345678", true)] } k
          = true ↔ k = "12345678") := by
  have hmem : event_t.metadata_change_callback [("12345678", 7)]
        { default_value := false, overrides := [("12345678", true)] } none ∈
        (handle (example_app true cluster_adapter)
          (example_req http_method_t.POST ["rdb_namespaces", "12345678"] "7"
            (some "changed_only") (some "application/json"))
          [("12345678", 1)]).trace := by
    have ht : (handle (example_app true cluster_adapter)
          (example_req http_method_t.POST ["rdb_namespaces", "12345678"] "7"
            (some "changed_only") (some "application/json"))
          [("12345678", 1)]).trace =
        [event_t.get, event_t.apply (some (cJSON.Number 7)) none,
          event_t.logINF (log_line.applying_data (some (cJSON.Object
            [("rdb_namespaces", cJSON.Object [("12345678", cJSON.Number 7)])]))),
          event_t.metadata_change_callback [("12345678", 7)]
            { default_value := false, overrides := [("12345678", true)] } none,
          event_t.update [("12345678", 7)]] := by rfl
    rw [ht]
    simp
  exact ⟨hmem, fun k =>
    (handle_POST_policy_map (example_app true cluster_adapter)
      (example_req http_method_t.POST ["rdb_namespaces", "12345678"] "7"
        (some "changed_only") (some "application/json"))
      [("12345678", 1)] [("12345678", 7)]
      { default_value := false, overrides := [("12345678", true)] } none rfl hmem).2.2
      rfl "rdb_namespaces" "12345678" [] "12345678" rfl (by simp [namespace_tags]) rfl k⟩

/-- C5, as amended: for a merge-update (POST) request whose path resolves and whose body
parses, if `prefer_distribution` is present with a value other than `none`, `all` and
`changed_only`, then apply, the callback and commit are never called and the store is
left alone; the response is bad-request when the content type passes the check or the
build does not enforce it, and unsupported-media-type when the build enforces it
(`NDEBUG`) and the check fails. -/
theorem handle_POST_invalid_prefer_distribution {S M U : Type} [DecidableEq U]
    (app : semilattice_http_app_t S M U) (req : http_req_t) (store : S)
    (n : json_adapter_if_t M) (v : cJSON) (value : String)
    (hmethod : req.method = http_method_t.POST)
    (hpath : resolves_to (app.metadata_change_handler.get store)
      (app.json_ctx_adapter_t { us := app.us }) req.resource n)
    (_hbody : app.cJSON_Parse req.body = some v)
    (hparam : req.find_query_param "prefer_distribution" = some value)
    (h1 : value ≠ "none") (h2 : value ≠ "all") (h3 : value ≠ "changed_only") :
    (∀ ev ∈ (handle app req store).trace, ev.is_mutation = false) ∧
      (handle app req store).store = store ∧
      ((app.NDEBUG = true → (verify_content_type req "application/json").1 = true) →
        (handle app req store).flow =
          flow_t.returned (http_res_t.status http_status_code_t.HTTP_BAD_REQUEST)) ∧
      (app.NDEBUG = true → (verify_content_type req "application/json").1 = false →
        (handle app req store).flow =
          flow_t.returned (http_res_t.status http_status_code_t.HTTP_UNSUPPORTED_MEDIA_TYPE)) := by
  obtain ⟨hmut, hstore, hflow, _⟩ := handle_POST_early_exit app req store hmethod
    (prioritize_distr_for_ns_of_invalid app.str_to_uuid req value hparam h1 h2 h3)
  exact ⟨hmut, hstore, (hflow n hpath).1, (hflow n hpath).2⟩

/-- C5, on the document `a = 1, b = 2`: a merge-update of `["a"]` with the body `7` and
`prefer_distribution=bogus` calls nothing that mutates; sent without a content type it
is answered bad-request by a build that does not enforce the content type. -/
theorem handle_POST_invalid_prefer_distribution_witness :
    (∀ ev ∈ (handle (example_app false root_adapter)
        (example_req http_method_t.POST ["a"] "7" (some "bogus") none)
        example_store).trace, ev.is_mutation = false) ∧
      (handle (example_app false root_adapter)
        (example_req http_method_t.POST ["a"] "7" (some "bogus") none)
        example_store).store = example_store ∧
      (handle (example_app false root_adapter)
        (example_req http_method_t.POST ["a"] "7" (some "bogus") none)
        example_store).flow =
        flow_t.returned (http_res_t.status http_status_code_t.HTTP_BAD_REQUEST) :=
  have h := handle_POST_invalid_prefer_distribution (example_app false root_adapter)
    (example_req http_method_t.POST ["a"] "7" (some "bogus") none) example_store
    (field_adapter "a") (cJSON.Number 7) "bogus" rfl
    (resolves_to.step root_adapter (field_adapter "a") (field_adapter "a") "a" []
      (by rfl) (resolves_to.here (field_adapter "a")))
    (by rfl) rfl (by decide) (by decide) (by decide)
  ⟨h.1, h.2.1, h.2.2.1 (fun hn => by cases hn)⟩

/-- C5 as stated fails in a build that enforces the content type: the same merge-update
with `prefer_distribution=bogus`, its path resolving and its body parsing, is answered
unsupported-media-type, not bad-request, when it carries no `Content-Type` header. -/
theorem handle_POST_invalid_prefer_distribution_counterexample :
    (example_req http_method_t.POST ["a"] "7" (some "bogus") none).method =
        http_method_t.POST ∧
      resolves_to ((example_app true root_adapter).metadata_change_handler.get example_store)
        ((example_app true root_adapter).json_ctx_adapter_t { us := "00000000" })
        (example_req http_method_t.POST ["a"] "7" (some "bogus") none).resource
        (field_adapter "a") ∧
      (example_app true root_adapter).cJSON_Parse
        (example_req http_method_t.POST ["a"] "7" (some "bogus") none).body =
        some (cJSON.Number 7) ∧
      (example_req http_method_t.POST ["a"] "7" (some "bogus") none).find_query_param
        "prefer_distribution" = some "bogus" ∧
      (handle (example_app true root_adapter)
        (example_req http_method_t.POST ["a"] "7" (some "bogus") none)
        example_store).flow =
        flow_t.returned (http_res_t.status http_status_code_t.HTTP_UNSUPPORTED_MEDIA_TYPE) ∧
      (handle (example_app true root_adapter)
        (example_req http_method_t.POST ["a"] "7" (some "bogus") none)
        example_store).flow ≠
        flow_t.returned (http_res_t.status http_status_code_t.HTTP_BAD_REQUEST) :=
  ⟨rfl,
   resolves_to.step root_adapter (field_adapter "a") (field_adapter "a") "a" []
     (by rfl) (resolves_to.here (field_adapter "a")),
   by rfl, rfl, by rfl,
   by
     have h : (handle (example_app true root_adapter)
        (example_req http_method_t.POST ["a"] "7" (some "bogus") none)
        example_store).flow =
        flow_t.returned (http_res_t.status http_status_code_t.HTTP_UNSUPPORTED_MEDIA_TYPE) :=
       by rfl
     rw [h]
     simp⟩

/-- C6, as amended: `get_resource_namespace(path)` returns a namespace id if and only if
the path has at least two segments, the first one of the three namespace tags and the
second a UUID; the id is that UUID, whatever follows the second segment; in every other
case it fails. A merge-update (POST) with `prefer_distribution=changed_only` on a path
where it fails never calls apply, the callback or commit and leaves the store alone; it
is answered bad-request when the path resolves and the content type passes the check (or
the build does not enforce it), unsupported-media-type when the path resolves and the
enforced check fails, and not-found when the path does not resolve. -/
theorem get_resource_namespace_and_changed_only {S M U : Type} [DecidableEq U]
    (app : semilattice_http_app_t S M U) (req : http_req_t) (store : S) :
    (∀ resource u, get_resource_namespace app.str_to_uuid resource = Except.ok u ↔
        ∃ tag ns rest, resource = tag :: ns :: rest ∧ tag ∈ namespace_tags ∧
          app.str_to_uuid ns = some u) ∧
      (∀ resource,
        (¬ ∃ tag ns rest u, resource = tag :: ns :: rest ∧ tag ∈ namespace_tags ∧
          app.str_to_uuid ns = some u) →
        ∃ e, get_resource_namespace app.str_to_uuid resource = Except.error e) ∧
      (req.method = http_method_t.POST →
        req.find_query_param "prefer_distribution" = some "changed_only" →
        (¬ ∃ tag ns rest u, req.resource = tag :: ns :: rest ∧ tag ∈ namespace_tags ∧
          app.str_to_uuid ns = some u) →
        (∀ ev ∈ (handle app req store).trace, ev.is_mutation = false) ∧
        (handle app req store).store = store ∧
        (∀ n, resolves_to (app.metadata_change_handler.get store)
            (app.json_ctx_adapter_t { us := app.us }) req.resource n →
          ((app.NDEBUG = true → (verify_content_type req "application/json").1 = true) →
            (handle app req store).flow =
              flow_t.returned (http_res_t.status http_status_code_t.HTTP_BAD_REQUEST)) ∧
          (app.NDEBUG = true → (verify_content_type req "application/json").1 = false →
            (handle app req store).flow =
              flow_t.returned
                (http_res_t.status http_status_code_t.HTTP_UNSUPPORTED_MEDIA_TYPE))) ∧
        (walks_off (app.metadata_change_handler.get store)
            (app.json_ctx_adapter_t { us := app.us }) req.resource →
          (handle app req store).flow =
            flow_t.returned (http_res_t.status http_status_code_t.HTTP_NOT_FOUND))) := by
  refine ⟨fun resource u => get_resource_namespace_ok_iff app.str_to_uuid resource u, ?_, ?_⟩
  · intro resource hno
    cases hg : get_resource_namespace app.str_to_uuid resource with
    | error e => exact ⟨e, rfl⟩
    | ok u =>
      obtain ⟨tag, ns, rest, h1, h2, h3⟩ :=
        (get_resource_namespace_ok_iff app.str_to_uuid resource u).1 hg
      exact absurd ⟨tag, ns, rest, u, h1, h2, h3⟩ hno
  · intro hmethod hparam hno
    refine handle_POST_early_exit app req store hmethod
      (prioritize_distr_for_ns_of_changed_only app.str_to_uuid req hparam ?_)
    intro u hg
    obtain ⟨tag, ns, rest, h1, h2, h3⟩ :=
      (get_resource_namespace_ok_iff app.str_to_uuid req.resource u).1 hg
    exact hno ⟨tag, ns, rest, u, h1, h2, h3⟩

/-- C6, on the document `a = 1, b = 2`: the path `["a"]` has no namespace id, and a
merge-update of it with `prefer_distribution=changed_only` mutates nothing and is
answered bad-request. -/
theorem get_resource_namespace_and_changed_only_witness :
    get_resource_namespace (example_app false root_adapter).str_to_uuid
        ["rdb_namespaces", "12345678", "name"] = Except.ok "12345678" ∧
      (∀ ev ∈ (handle (example_app false root_adapter)
          (example_req http_method_t.POST ["a"] "7" (some "changed_only") none)
          example_store).trace, ev.is_mutation = false) ∧
      (handle (example_app false root_adapter)
        (example_req http_method_t.POST ["a"] "7" (some "changed_only") none)
        example_store).flow =
        flow_t.returned (http_res_t.status http_status_code_t.HTTP_BAD_REQUEST) := by
  have h := get_resource_namespace_and_changed_only (example_app false root_adapter)
    (example_req http_method_t.POST ["a"] "7" (some "changed_only") none) example_store
  have hno : ¬ ∃ tag ns rest u,
      (example_req http_method_t.POST ["a"] "7" (some "changed_only") none).resource =
        tag :: ns :: rest ∧ tag ∈ namespace_tags ∧
        (example_app false root_adapter).str_to_uuid ns = some u := by
    rintro ⟨tag, ns, rest, u, hres, _, _⟩
    simp [example_req] at hres
  obtain ⟨hmut, _, hflow, _⟩ := h.2.2 rfl rfl hno
  refine ⟨(h.1 _ _).2 ⟨"rdb_namespaces", "12345678", ["name"], rfl,
    by simp [namespace_tags], by rfl⟩, hmut, ?_⟩
  exact (hflow (field_adapter "a")
    (resolves_to.step root_adapter (field_adapter "a") (field_adapter "a") "a" []
      (by rfl) (resolves_to.here (field_adapter "a")))).1 (fun hn => by cases hn)

/-- C6 as stated fails twice. A merge-update with `prefer_distribution=changed_only` of
the path `["nope"]`, which has no namespace id and does not resolve, is answered
not-found; and one of the root path, sent without `Content-Type` header to a build that
enforces the content type, is answered unsupported-media-type. Neither is bad-request. -/
theorem changed_only_bad_request_counterexample :
    (get_resource_namespace (example_app false root_adapter).str_to_uuid ["nope"] =
        Except.error { msg := "Unhandled namespace protocol nope" } ∧
      (handle (example_app false root_adapter)
        (example_req http_method_t.POST ["nope"] "7" (some "changed_only") none)
        example_store).flow =
        flow_t.returned (http_res_t.status http_status_code_t.HTTP_NOT_FOUND)) ∧
      (get_resource_namespace (example_app true root_adapter).str_to_uuid [] =
        Except.error { msg := "No namespace protocol defined" } ∧
      (handle (example_app true root_adapter)
        (example_req http_method_t.POST [] "7" (some "changed_only") none)
        example_store).flow =
        flow_t.returned
          (http_res_t.status http_status_code_t.HTTP_UNSUPPORTED_MEDIA_TYPE)) :=
  ⟨⟨by rfl, by rfl⟩, ⟨by rfl, by rfl⟩⟩

/-- C7: no domain exception leaves `handle`, and whenever a call of reset, apply, erase or
the callback raises one, the response is the one of its catch clause: an error response
with the message for schema-mismatch and for permission-denied, an internal-server-error
response with the message for cannot-satisfy-goals, a gone response with the message for
gone. -/
theorem handle_catches_domain_exceptions {S M U : Type} [DecidableEq U]
    (app : semilattice_http_app_t S M U) (req : http_req_t) (store : S) :
    (∀ e, (handle app req store).flow = flow_t.threw e → e.is_domain = false) ∧
      ∀ ev ∈ (handle app req store).trace, ∀ what,
        (ev.thrown = some (exc_t.schema_mismatch_exc_t what) →
          (handle app req store).flow =
            flow_t.returned (http_res_t.http_error_res what none)) ∧
        (ev.thrown = some (exc_t.permission_denied_exc_t what) →
          (handle app req store).flow =
            flow_t.returned (http_res_t.http_error_res what none)) ∧
        (ev.thrown = some (exc_t.cannot_satisfy_goals_exc_t what) →
          (handle app req store).flow =
            flow_t.returned (http_res_t.http_error_res what
              (some http_status_code_t.HTTP_INTERNAL_SERVER_ERROR))) ∧
        (ev.thrown = some (exc_t.gone_exc_t what) →
          (handle app req store).flow =
            flow_t.returned (http_res_t.http_error_res what
              (some http_status_code_t.HTTP_GONE))) := by
  constructor
  · intro e he
    cases hf : (handle_try app req store).flow with
    | returned res =>
      rw [handle_of_returned app req store res hf, hf] at he
      cases he
    | threw e0 =>
      rw [(handle_of_threw app req store e0 hf).1] at he
      cases e0 <;> simp [error_response] at he <;> subst he <;> rfl
  · intro ev hev what
    have key : ∀ e, ev.thrown = some e →
        (handle app req store).flow =
          (match error_response e with
            | some res => flow_t.returned res
            | none => flow_t.threw e) := by
      intro e he
      have hlog : ∀ line, ev ≠ event_t.logINF line := by
        intro line h
        subst h
        simp [event_t.thrown] at he
      have hf := handle_try_thrown app req store ev
        (mem_handle_try_of_mem_handle app req store ev hev hlog) e he
      exact (handle_of_threw app req store e hf).1
    exact ⟨fun h => key _ h, fun h => key _ h, fun h => key _ h, fun h => key _ h⟩

/-- C7, on the document `a = 1, b = 2`: deleting the root makes `erase` raise
permission-denied, and the answer is the error response with its message. -/
theorem handle_catches_domain_exceptions_witness :
    event_t.erase (some (exc_t.permission_denied_exc_t "cannot erase the document")) ∈
        (handle (example_app false root_adapter)
          (example_req http_method_t.DELETE [] "" none none) example_store).trace ∧
      (handle (example_app false root_adapter)
        (example_req http_method_t.DELETE [] "" none none) example_store).flow =
        flow_t.returned (http_res_t.http_error_res "cannot erase the document" none) := by
  have hmem : event_t.erase
      (some (exc_t.permission_denied_exc_t "cannot erase the document")) ∈
      (handle (example_app false root_adapter)
        (example_req http_method_t.DELETE [] "" none none) example_store).trace := by
    have ht : (handle (example_app false root_adapter)
        (example_req http_method_t.DELETE [] "" none none) example_store).trace =
        [event_t.get,
          event_t.erase (some (exc_t.permission_denied_exc_t "cannot erase the document")),
          event_t.logINF (log_line.request_threw
            (exc_t.permission_denied_exc_t "cannot erase the document"))] := by rfl
    rw [ht]
    simp
  exact ⟨hmem,
    ((handle_catches_domain_exceptions (example_app false root_adapter)
      (example_req http_method_t.DELETE [] "" none none) example_store).2
      _ hmem "cannot erase the document").2.1 rfl⟩

/-- C8, as amended: a delete (DELETE) request whose path resolves to the node `n` calls
`n.erase()` first; when that returns normally, the callback with the all-false default
policy map on the erased document; when that returns normally too, it commits the document
the callback left, once, and answers with `n.render()` of that document, the state after
the erase. The body is not read: another body gives the same run. When `erase` or the
callback raises, the run ends with that call: nothing is committed, the store is as
before, and the answer is the one the catch clauses give to the exception. -/
theorem handle_DELETE_erases_recomputes_commits {S M U : Type} [DecidableEq U]
    (app : semilattice_http_app_t S M U) (req : http_req_t) (store : S)
    (n : json_adapter_if_t M)
    (hmethod : req.method = http_method_t.DELETE)
    (hpath : resolves_to (app.metadata_change_handler.get store)
      (app.json_ctx_adapter_t { us := app.us }) req.resource n) :
    (∃ rest, (handle app req store).trace =
        [event_t.get,
          event_t.erase (n.erase (app.metadata_change_handler.get store)).thrown] ++ rest) ∧
      (∀ m1, n.erase (app.metadata_change_handler.get store) = effect.ok m1 →
        ∃ rest, (handle app req store).trace =
          [event_t.get, event_t.erase none,
            event_t.logINF (log_line.deleting req.resource),
            event_t.metadata_change_callback m1 (defaulting_map_t.mk_default false)
              (app.metadata_change_callback m1
                (defaulting_map_t.mk_default false)).thrown] ++ rest) ∧
      (∀ m1 m2, n.erase (app.metadata_change_handler.get store) = effect.ok m1 →
        app.metadata_change_callback m1 (defaulting_map_t.mk_default false) =
          effect.ok m2 →
        handle app req store =
          { flow := flow_t.returned (http_res_t.http_json_res (n.render m2)),
            store := app.metadata_change_handler.update store m2,
            metadata := m2,
            trace := [event_t.get, event_t.erase none,
              event_t.logINF (log_line.deleting req.resource),
              event_t.metadata_change_callback m1 (defaulting_map_t.mk_default false) none,
              event_t.update m2] }) ∧
      (∀ body sanitized_body,
        handle app { req with body := body, get_sanitized_body := sanitized_body } store =
          handle app req store) ∧
      (∀ e m1, n.erase (app.metadata_change_handler.get store) = effect.throw e m1 →
        (handle app req store).trace =
          [event_t.get, event_t.erase (some e)] ++
            (if e.is_domain = true then [event_t.logINF (log_line.request_threw e)]
              else []) ∧
        (handle app req store).store = store ∧
        (handle app req store).flow =
          (match error_response e with
            | some res => flow_t.returned res
            | none => flow_t.threw e)) ∧
      ∀ m1 e m2, n.erase (app.metadata_change_handler.get store) = effect.ok m1 →
        app.metadata_change_callback m1 (defaulting_map_t.mk_default false) =
          effect.throw e m2 →
        (handle app req store).trace =
          [event_t.get, event_t.erase none,
            event_t.logINF (log_line.deleting req.resource),
            event_t.metadata_change_callback m1 (defaulting_map_t.mk_default false)
              (some e)] ++
            (if e.is_domain = true then [event_t.logINF (log_line.request_threw e)]
              else []) ∧
        (handle app req store).store = store ∧
        (handle app req store).flow =
          (match error_response e with
            | some res => flow_t.returned res
            | none => flow_t.threw e) := by
  have ht := handle_try_of_traverse_some app req store n
    ((traverse_eq_some_iff _ _ _ _).2 hpath)
  simp only [hmethod] at ht
  refine ⟨?_, ?_, ?_, ?_, ?_, ?_⟩
  · rcases handle_DELETE_cases app req store (app.metadata_change_handler.get store) n
      [event_t.get] with ⟨e1, m1, he, h⟩ | ⟨m1, e2, m2, he, _, h⟩ | ⟨m1, m2, he, _, h⟩
    all_goals
      rw [h] at ht
      rw [he]
      exact handle_trace_begins app req store _ _ (by rw [ht]; rfl)
  · intro m1 he
    rcases handle_DELETE_cases app req store (app.metadata_change_handler.get store) n
      [event_t.get] with ⟨e1, m0, he0, h⟩ | ⟨m0, e2, m2, he0, hc, h⟩ | ⟨m0, m2, he0, hc, h⟩
    · rw [he] at he0
      cases he0
    all_goals
      rw [he] at he0
      cases he0
      rw [h] at ht
      rw [hc]
      exact handle_trace_begins app req store _ _ (by rw [ht]; rfl)
  · intro m1 m2 he hc
    have hd : handle_DELETE app req store (app.metadata_change_handler.get store) n
        [event_t.get] =
        { flow := flow_t.returned (http_res_t.http_json_res (n.render m2)),
          store := app.metadata_change_handler.update store m2,
          metadata := m2,
          trace := [event_t.get, event_t.erase none,
            event_t.logINF (log_line.deleting req.resource),
            event_t.metadata_change_callback m1 (defaulting_map_t.mk_default false) none,
            event_t.update m2] } := by
      simp [handle_DELETE, he, hc, effect.ok]
    rw [hd] at ht
    have hh : handle app req store = handle_try app req store :=
      handle_of_returned app req store _ (by rw [ht])
    rw [hh, ht]
  · intro body sanitized_body
    simp only [handle, handle_try, hmethod]
    rfl
  · intro e m1 he
    rcases handle_DELETE_cases app req store (app.metadata_change_handler.get store) n
      [event_t.get] with ⟨e1, m0, he0, h⟩ | ⟨m0, e2, m2, he0, _, h⟩ | ⟨m0, m2, he0, _, h⟩
    · rw [he] at he0
      cases he0
      rw [h] at ht
      obtain ⟨hflow, hstore, _, htrace⟩ :=
        handle_of_threw app req store e (by rw [ht])
      rw [ht] at hstore htrace
      exact ⟨htrace, hstore, hflow⟩
    · rw [he] at he0
      cases he0
    · rw [he] at he0
      cases he0
  · intro m1 e m2 he hc
    rcases handle_DELETE_cases app req store (app.metadata_change_handler.get store) n
      [event_t.get] with
      ⟨e1, m0, he0, h⟩ | ⟨m0, e2, m3, he0, hc0, h⟩ | ⟨m0, m3, he0, hc0, h⟩
    · rw [he] at he0
      cases he0
    · rw [he] at he0
      cases he0
      rw [hc] at hc0
      cases hc0
      rw [h] at ht
      obtain ⟨hflow, hstore, _, htrace⟩ :=
        handle_of_threw app req store e (by rw [ht])
      rw [ht] at hstore htrace
      exact ⟨htrace, hstore, hflow⟩
    · rw [he] at he0
      cases he0
      rw [hc] at hc0
      cases hc0

/-- C8, on the document `a = 1, b = 2`: deleting `["a"]` erases the field, hands the
callback the all-false map, commits `b = 2` and renders the erased field, which is null. -/
theorem handle_DELETE_erases_recomputes_commits_witness :
    handle (example_app true root_adapter)
        (example_req http_method_t.DELETE ["a"] "" (some "all") none) example_store =
      { flow := flow_t.returned (http_res_t.http_json_res cJSON.Null),
        store := [("b", 2)],
        metadata := [("b", 2)],
        trace := [event_t.get, event_t.erase none,
          event_t.logINF (log_line.deleting ["a"]),
          event_t.metadata_change_callback [("b", 2)]
            (defaulting_map_t.mk_default false) none,
          event_t.update [("b", 2)]] } :=
  (handle_DELETE_erases_recomputes_commits (example_app true root_adapter)
    (example_req http_method_t.DELETE ["a"] "" (some "all") none) example_store
    (field_adapter "a") rfl
    (resolves_to.step root_adapter (field_adapter "a") (field_adapter "a") "a" []
      (by rfl) (resolves_to.here (field_adapter "a")))).2.2.1
    [("b", 2)] [("b", 2)] (by rfl) (by rfl)

/-- C8 as stated fails when a call raises: deleting the root of the document
`a = 1, b = 2`, whose path resolves, makes `erase` raise permission-denied; the callback is
not called, nothing is committed, and the answer is an error response, not the render. -/
theorem handle_DELETE_sequence_counterexample :
    (example_req http_method_t.DELETE [] "" none none).method = http_method_t.DELETE ∧
      resolves_to ((example_app false root_adapter).metadata_change_handler.get example_store)
        ((example_app false root_adapter).json_ctx_adapter_t { us := "00000000" })
        (example_req http_method_t.DELETE [] "" none none).resource root_adapter ∧
      handle (example_app false root_adapter)
        (example_req http_method_t.DELETE [] "" none none) example_store =
        { flow := flow_t.returned
            (http_res_t.http_error_res "cannot erase the document" none),
          store := example_store,
          metadata := example_store,
          trace := [event_t.get,
            event_t.erase (some (exc_t.permission_denied_exc_t "cannot erase the document")),
            event_t.logINF (log_line.request_threw
              (exc_t.permission_denied_exc_t "cannot erase the document"))] } :=
  ⟨rfl, resolves_to.here root_adapter, by rfl⟩

/-- C9: for replace (PUT) and delete (DELETE) requests the `prefer_distribution` parameter
has no influence. Replacing the query parameters of a request by any others (so also
changing only `prefer_distribution`, to absent, a recognised or an unrecognised literal)
gives the same run: the same response, store, calls and arguments; and every call of the
callback is handed the all-false default map without entries. -/
theorem handle_PUT_DELETE_ignore_prefer_distribution {S M U : Type} [DecidableEq U]
    (app : semilattice_http_app_t S M U) (req : http_req_t) (store : S)
    (query : String → Option String)
    (hmethod : req.method = http_method_t.PUT ∨ req.method = http_method_t.DELETE) :
    handle app { req with find_query_param := query } store = handle app req store ∧
      ∀ m p thrown,
        event_t.metadata_change_callback m p thrown ∈ (handle app req store).trace →
        p = { default_value := false, overrides := [] } := by
  constructor
  · rcases hmethod with hm | hm
    · simp only [handle, handle_try, hm]
      rfl
    · simp only [handle, handle_try, hm]
      rfl
  · intro m p thrown hev
    exact handle_try_PUT_DELETE_callback app req store hmethod m p thrown
      (mem_handle_try_of_mem_handle app req store _ hev (by intro line h; cases h))

/-- C9, on the document `a = 1, b = 2`: deleting `["a"]` with `prefer_distribution=all`
runs exactly as with `prefer_distribution=bogus`. -/
theorem handle_PUT_DELETE_ignore_prefer_distribution_witness :
    handle (example_app true root_adapter)
        { example_req http_method_t.DELETE ["a"] "" (some "all") none with
          find_query_param := fun key =>
            if key = "prefer_distribution" then some "bogus" else none }
        example_store =
        handle (example_app true root_adapter)
          (example_req http_method_t.DELETE ["a"] "" (some "all") none) example_store ∧
      ∀ m p thrown,
        event_t.metadata_change_callback m p thrown ∈
          (handle (example_app true root_adapter)
            (example_req http_method_t.DELETE ["a"] "" (some "all") none)
            example_store).trace →
        p = { default_value := false, overrides := [] } :=
  handle_PUT_DELETE_ignore_prefer_distribution (example_app true root_adapter)
    (example_req http_method_t.DELETE ["a"] "" (some "all") none) example_store
    (fun key => if key = "prefer_distribution" then some "bogus" else none)
    (Or.inr rfl)

/-- C10: a fetch (GET) request whose path resolves to the node `n` (the root for the
empty path, otherwise the node reached segment by segment through the subfields) is
answered with `n.render()`, and nothing but the fetch of the snapshot is performed: no
reset, apply, erase, callback or commit, and the store is as before. -/
theorem handle_GET_renders_resolved_node {S M U : Type} [DecidableEq U]
    (app : semilattice_http_app_t S M U) (req : http_req_t) (store : S)
    (n : json_adapter_if_t M)
    (hmethod : req.method = http_method_t.GET)
    (hpath : resolves_to (app.metadata_change_handler.get store)
      (app.json_ctx_adapter_t { us := app.us }) req.resource n) :
    (handle app req store).flow =
        flow_t.returned (http_res_t.http_json_res
          (n.render (app.metadata_change_handler.get store))) ∧
      (handle app req store).store = store ∧
      (handle app req store).trace = [event_t.get] ∧
      (∀ ev ∈ (handle app req store).trace, ev.is_mutation = false) ∧
      (req.resource = [] → n = app.json_ctx_adapter_t { us := app.us }) := by
  have ht := handle_try_of_traverse_some app req store n
    ((traverse_eq_some_iff _ _ _ _).2 hpath)
  simp only [hmethod] at ht
  have hh : handle app req store = handle_try app req store :=
    handle_of_returned app req store _ (by rw [ht])
  rw [hh, ht]
  refine ⟨rfl, rfl, rfl, ?_, ?_⟩
  · intro ev hev
    simp only [List.mem_singleton] at hev
    subst hev
    rfl
  · intro hnil
    rw [hnil] at hpath
    cases hpath
    rfl

/-- C10, on the document `a = 1, b = 2`: fetching `["b"]` renders the number 2 and leaves
the store alone. -/
theorem handle_GET_renders_resolved_node_witness :
    (handle (example_app true root_adapter)
        (example_req http_method_t.GET ["b"] "" none none) example_store).flow =
        flow_t.returned (http_res_t.http_json_res (cJSON.Number 2)) ∧
      (handle (example_app true root_adapter)
        (example_req http_method_t.GET ["b"] "" none none) example_store).store =
        example_store ∧
      (handle (example_app true root_adapter)
        (example_req http_method_t.GET ["b"] "" none none) example_store).trace =
        [event_t.get] ∧
      (∀ ev ∈ (handle (example_app true root_adapter)
        (example_req http_method_t.GET ["b"] "" none none) example_store).trace,
        ev.is_mutation = false) ∧
      ((example_req http_method_t.GET ["b"] "" none none).resource = [] →
        field_adapter "b" = root_adapter) :=
  handle_GET_renders_resolved_node (example_app true root_adapter)
    (example_req http_method_t.GET ["b"] "" none none) example_store (field_adapter "b")
    rfl
    (resolves_to.step root_adapter (field_adapter "b") (field_adapter "b") "b" []
      (by rfl) (resolves_to.here (field_adapter "b")))

/-- C11: a request whose path resolves and whose method is none of GET, POST, PUT and
DELETE (so HEAD, TRACE, OPTIONS, CONNECT or PATCH) is answered method-not-allowed without
touching the store: the run is the fetch alone, no commit and no reset, apply, erase or
callback. -/
theorem handle_other_method_not_allowed {S M U : Type} [DecidableEq U]
    (app : semilattice_http_app_t S M U) (req : http_req_t) (store : S)
    (n : json_adapter_if_t M)
    (hpath : resolves_to (app.metadata_change_handler.get store)
      (app.json_ctx_adapter_t { us := app.us }) req.resource n)
    (hmethod : req.method ≠ http_method_t.GET ∧ req.method ≠ http_method_t.POST ∧
      req.method ≠ http_method_t.PUT ∧ req.method ≠ http_method_t.DELETE) :
    (req.method = http_method_t.HEAD ∨ req.method = http_method_t.TRACE ∨
        req.method = http_method_t.OPTIONS ∨ req.method = http_method_t.CONNECT ∨
        req.method = http_method_t.PATCH) ∧
      handle app req store =
        { flow := flow_t.returned
            (http_res_t.status http_status_code_t.HTTP_METHOD_NOT_ALLOWED),
          store := store,
          metadata := app.metadata_change_handler.get store,
          trace := [event_t.get] } ∧
      ∀ ev ∈ (handle app req store).trace, ev.is_mutation = false := by
  have ht := handle_try_of_traverse_some app req store n
    ((traverse_eq_some_iff _ _ _ _).2 hpath)
  obtain ⟨h1, h2, h3, h4⟩ := hmethod
  have hrun : handle_try app req store =
      { flow := flow_t.returned
          (http_res_t.status http_status_code_t.HTTP_METHOD_NOT_ALLOWED),
        store := store,
        metadata := app.metadata_change_handler.get store,
        trace := [event_t.get] } := by
    rw [ht]
    cases hm : req.method <;> simp_all
  have hh : handle app req store = handle_try app req store :=
    handle_of_returned app req store _ (by rw [hrun])
  rw [hh, hrun]
  refine ⟨?_, rfl, ?_⟩
  · cases hm : req.method <;> simp_all
  · intro ev hev
    simp only [List.mem_singleton] at hev
    subst hev
    rfl

/-- C11, on the document `a = 1, b = 2`: a PATCH request for `["a"]` with a body and a
parameter is answered method-not-allowed and only fetches. -/
theorem handle_other_method_not_allowed_witness :
    handle (example_app true root_adapter)
        (example_req http_method_t.PATCH ["a"] "7" (some "all") (some "application/json"))
        example_store =
      { flow := flow_t.returned
          (http_res_t.status http_status_code_t.HTTP_METHOD_NOT_ALLOWED),
        store := example_store,
        metadata := example_store,
        trace := [event_t.get] } :=
  (handle_other_method_not_allowed (example_app true root_adapter)
    (example_req http_method_t.PATCH ["a"] "7" (some "all") (some "application/json"))
    example_store (field_adapter "a")
    (resolves_to.step root_adapter (field_adapter "a") (field_adapter "a") "a" []
      (by rfl) (resolves_to.here (field_adapter "a")))
    ⟨by decide, by decide, by decide, by decide⟩).2.1

/-- C12, as amended: for a merge-update (POST) or replace (PUT) request whose path
resolves and whose body does not parse, no reset, apply, callback or commit is performed
and the store is left alone, whatever the query parameters (replacing them gives the same
run); the response is bad-request when the content type passes the check or the build
does not enforce it, and unsupported-media-type when the build enforces it (`NDEBUG`) and
the check fails. -/
theorem handle_unparsable_body {S M U : Type} [DecidableEq U]
    (app : semilattice_http_app_t S M U) (req : http_req_t) (store : S)
    (n : json_adapter_if_t M)
    (hmethod : req.method = http_method_t.POST ∨ req.method = http_method_t.PUT)
    (hpath : resolves_to (app.metadata_change_handler.get store)
      (app.json_ctx_adapter_t { us := app.us }) req.resource n)
    (hbody : app.cJSON_Parse req.body = none) :
    (∀ ev ∈ (handle app req store).trace, ev.is_mutation = false) ∧
      (handle app req store).store = store ∧
      ((app.NDEBUG = true → (verify_content_type req "application/json").1 = true) →
        (handle app req store).flow =
          flow_t.returned (http_res_t.status http_status_code_t.HTTP_BAD_REQUEST)) ∧
      (app.NDEBUG = true → (verify_content_type req "application/json").1 = false →
        (handle app req store).flow =
          flow_t.returned
            (http_res_t.status http_status_code_t.HTTP_UNSUPPORTED_MEDIA_TYPE)) ∧
      ∀ query, handle app { req with find_query_param := query } store =
        handle app req store := by
  have ht := handle_try_of_traverse_some app req store n
    ((traverse_eq_some_iff _ _ _ _).2 hpath)
  have hrun : (app.NDEBUG = true ∧ (verify_content_type req "application/json").1 = false ∧
        handle_try app req store =
          { flow := flow_t.returned
              (http_res_t.status http_status_code_t.HTTP_UNSUPPORTED_MEDIA_TYPE),
            store := store, metadata := app.metadata_change_handler.get store,
            trace := [event_t.get] ++ (verify_content_type req "application/json").2.map
              event_t.logINF }) ∨
      ((app.NDEBUG = true → (verify_content_type req "application/json").1 = true) ∧
        handle_try app req store =
          { flow := flow_t.returned (http_res_t.status http_status_code_t.HTTP_BAD_REQUEST),
            store := store, metadata := app.metadata_change_handler.get store,
            trace := [event_t.get] ++ [event_t.logINF
              (log_line.body_failed_to_parse req.get_sanitized_body)] }) := by
    rcases hmethod with hm | hm
    · simp only [hm] at ht
      rcases handle_POST_cases app req store (app.metadata_change_handler.get store) n
        [event_t.get] with ⟨hnd, hv, h⟩ | ⟨hpass, ⟨_, h⟩ | ⟨v, hv, _⟩⟩
      · exact Or.inl ⟨hnd, hv, by rw [ht, h]⟩
      · exact Or.inr ⟨hpass, by rw [ht, h]⟩
      · rw [hbody] at hv
        cases hv
    · simp only [hm] at ht
      rcases handle_PUT_cases app req store (app.metadata_change_handler.get store) n
        [event_t.get] with ⟨hnd, hv, h⟩ | ⟨hpass, ⟨_, h⟩ | ⟨v, hv, _⟩⟩
      · exact Or.inl ⟨hnd, hv, by rw [ht, h]⟩
      · exact Or.inr ⟨hpass, by rw [ht, h]⟩
      · rw [hbody] at hv
        cases hv
  refine ⟨?_, ?_, ?_, ?_, ?_⟩
  · rcases hrun with ⟨_, _, h⟩ | ⟨_, h⟩
    · rw [handle_of_returned app req store _ (by rw [h]), h]
      intro ev hev
      simp only [List.mem_append, List.mem_singleton, List.mem_map] at hev
      rcases hev with rfl | ⟨line, _, rfl⟩ <;> rfl
    · rw [handle_of_returned app req store _ (by rw [h]), h]
      intro ev hev
      simp only [List.mem_append, List.mem_singleton] at hev
      rcases hev with rfl | rfl <;> rfl
  · rcases hrun with ⟨_, _, h⟩ | ⟨_, h⟩ <;>
      rw [handle_of_returned app req store _ (by rw [h]), h]
  · intro hc
    rcases hrun with ⟨hnd, hv, _⟩ | ⟨_, h⟩
    · rw [hc hnd] at hv
      cases hv
    · rw [handle_of_returned app req store _ (by rw [h]), h]
  · intro hnd hv
    rcases hrun with ⟨_, _, h⟩ | ⟨hpass, _⟩
    · rw [handle_of_returned app req store _ (by rw [h]), h]
    · rw [hpass hnd] at hv
      cases hv
  · intro query
    rcases hmethod with hm | hm
    · simp [handle, handle_try, hm, handle_POST, hbody, scoped_cJSON_t.get,
        verify_content_type]
    · simp only [handle, handle_try, hm]
      rfl

/-- C12, on the document `a = 1, b = 2`: a replace of `["a"]` whose body `oops` does not
parse, sent to a build that does not enforce the content type, mutates nothing and is
answered bad-request. -/
theorem handle_unparsable_body_witness :
    (∀ ev ∈ (handle (example_app false root_adapter)
        (example_req http_method_t.PUT ["a"] "oops" (some "bogus") none)
        example_store).trace, ev.is_mutation = false) ∧
      (handle (example_app false root_adapter)
        (example_req http_method_t.PUT ["a"] "oops" (some "bogus") none)
        example_store).store = example_store ∧
      (handle (example_app false root_adapter)
        (example_req http_method_t.PUT ["a"] "oops" (some "bogus") none)
        example_store).flow =
        flow_t.returned (http_res_t.status http_status_code_t.HTTP_BAD_REQUEST) :=
  have h := handle_unparsable_body (example_app false root_adapter)
    (example_req http_method_t.PUT ["a"] "oops" (some "bogus") none) example_store
    (field_adapter "a") (Or.inr rfl)
    (resolves_to.step root_adapter (field_adapter "a") (field_adapter "a") "a" []
      (by rfl) (resolves_to.here (field_adapter "a")))
    (by rfl)
  ⟨h.1, h.2.1, h.2.2.1 (fun hn => by cases hn)⟩

/-- C12 as stated fails in a build that enforces the content type: a merge-update of
`["a"]` whose path resolves and whose body `oops` does not parse is answered
unsupported-media-type, not bad-request, when it carries no `Content-Type` header. -/
theorem handle_unparsable_body_counterexample :
    (example_req http_method_t.POST ["a"] "oops" none none).method = http_method_t.POST ∧
      resolves_to ((example_app true root_adapter).metadata_change_handler.get example_store)
        ((example_app true root_adapter).json_ctx_adapter_t { us := "00000000" })
        (example_req http_method_t.POST ["a"] "oops" none none).resource
        (field_adapter "a") ∧
      (example_app true root_adapter).cJSON_Parse
        (example_req http_method_t.POST ["a"] "oops" none none).body = none ∧
      handle (example_app true root_adapter)
        (example_req http_method_t.POST ["a"] "oops" none none) example_store =
        { flow := flow_t.returned
            (http_res_t.status http_status_code_t.HTTP_UNSUPPORTED_MEDIA_TYPE),
          store := example_store,
          metadata := example_store,
          trace := [event_t.get,
            event_t.logINF (log_line.bad_content_type "application/json" "<NONE>")] } :=
  ⟨rfl,
   resolves_to.step root_adapter (field_adapter "a") (field_adapter "a") "a" []
     (by rfl) (resolves_to.here (field_adapter "a")),
   by rfl, by rfl⟩

/-- C13: for every path and parsed body `b`, the value the change-logging formatter
prints is the object nested along the path: `b` itself for the empty path, with no
wrapping, and otherwise an object whose only key is the first segment and whose value is
the nesting of `b` along the remaining segments, so that the innermost value is `b`. Every
line of a run of `handle` that logs applied data carries that value. -/
theorem absolute_change_mirrors_path {S M U : Type} [DecidableEq U]
    (app : semilattice_http_app_t S M U) (req : http_req_t) (store : S) (b : cJSON)
    (hbody : app.cJSON_Parse req.body = some b) :
    (absolute_change_block { val := some b } req.resource).1 =
        some (nested_change req.resource b) ∧
      (∀ x, event_t.logINF (log_line.applying_data x) ∈ (handle app req store).trace →
        x = some (nested_change req.resource b)) ∧
      nested_change [] b = b ∧
      ∀ segment rest, nested_change (segment :: rest) b =
        cJSON.Object [(segment, nested_change rest b)] := by
  refine ⟨absolute_change_block_fst b req.resource, ?_, rfl, fun _ _ => rfl⟩
  intro x hev
  rw [← absolute_change_block_fst b req.resource]
  refine handle_try_applying_data app req store b hbody x ?_
  rcases (handle_trace_store app req store).2 with h | ⟨e, h⟩
  · rwa [h] at hev
  · rw [h] at hev
    simp only [List.mem_append, List.mem_singleton] at hev
    rcases hev with hev | hev
    · exact hev
    · cases hev

/-- C13, on the namespace `12345678`: a merge-update of `["rdb_namespaces", "12345678"]`
with the body `7` logs the number wrapped twice, the first segment outermost. -/
theorem absolute_change_mirrors_path_witness :
    event_t.logINF (log_line.applying_data (some (cJSON.Object
        [("rdb_namespaces", cJSON.Object [("12345678", cJSON.Number 7)])]))) ∈
        (handle (example_app true cluster_adapter)
          (example_req http_method_t.POST ["rdb_namespaces", "12345678"] "7" none
            (some "application/json"))
          [("12345678", 1)]).trace ∧
      (absolute_change_block { val := some (cJSON.Number 7) }
        ["rdb_namespaces", "12345678"]).1 =
        some (cJSON.Object
          [("rdb_namespaces", cJSON.Object [("12345678", cJSON.Number 7)])]) ∧
      (absolute_change_block { val := some (cJSON.Number 7) } []).1 =
        some (cJSON.Number 7) := by
  have ht : (handle (example_app true cluster_adapter)
        (example_req http_method_t.POST ["rdb_namespaces", "12345678"] "7" none
          (some "application/json"))
        [("12345678", 1)]).trace =
      [event_t.get, event_t.apply (some (cJSON.Number 7)) none,
        event_t.logINF (log_line.applying_data (some (cJSON.Object
          [("rdb_namespaces", cJSON.Object [("12345678", cJSON.Number 7)])]))),
        event_t.metadata_change_callback [("12345678", 7)]
          { default_value := false, overrides := [] } none,
        event_t.update [("12345678", 7)]] := by rfl
  refine ⟨by rw [ht]; simp, ?_, ?_⟩
  · exact (absolute_change_mirrors_path (example_app true cluster_adapter)
      (example_req http_method_t.POST ["rdb_namespaces", "12345678"] "7" none
        (some "application/json"))
      [("12345678", 1)] (cJSON.Number 7) (by rfl)).1
  · rfl

/-- C14: `get_root` is in sync with `handle`: for every store and acting node, the JSON
`get_root` writes is the body of the response of `handle` to a GET request with the empty
path, namely the render of the root adapter built over the fetched snapshot with a fresh
version context for that node. -/
theorem get_root_in_sync_with_handle {S M U : Type} [DecidableEq U]
    (app : semilattice_http_app_t S M U) (req : http_req_t) (store : S)
    (hmethod : req.method = http_method_t.GET) (hresource : req.resource = []) :
    (handle app req store).flow =
        flow_t.returned (http_res_t.http_json_res (get_root app store)) ∧
      get_root app store =
        (app.json_ctx_adapter_t { us := app.us }).render
          (app.metadata_change_handler.get store) := by
  refine ⟨?_, rfl⟩
  have hpath : resolves_to (app.metadata_change_handler.get store)
      (app.json_ctx_adapter_t { us := app.us }) req.resource
      (app.json_ctx_adapter_t { us := app.us }) := by
    rw [hresource]
    exact resolves_to.here _
  have ht := handle_try_of_traverse_some app req store _
    ((traverse_eq_some_iff _ _ _ _).2 hpath)
  simp only [hmethod] at ht
  rw [handle_of_returned app req store _ (by rw [ht]), ht]
  rfl

/-- C14, on the document `a = 1, b = 2`: `get_root` writes the object of both fields, and
so does the response to a GET of the empty path. -/
theorem get_root_in_sync_with_handle_witness :
    get_root (example_app true root_adapter) example_store =
        cJSON.Object [("a", cJSON.Number 1), ("b", cJSON.Number 2)] ∧
      (handle (example_app true root_adapter)
        (example_req http_method_t.GET [] "" none none) example_store).flow =
        flow_t.returned (http_res_t.http_json_res
          (get_root (example_app true root_adapter) example_store)) :=
  ⟨by rfl,
   (get_root_in_sync_with_handle (example_app true root_adapter)
     (example_req http_method_t.GET [] "" none none) example_store rfl rfl).1⟩

/-- C15: `verify_content_type(req, expected)` returns true if and only if the request has
a `Content-Type` header whose value starts with `expected`, letter case ignored. So for
`application/json` the values `application/json; charset=UTF-8` and `Application/JSON`
are accepted, and a missing header or the value `text/json` is rejected. -/
theorem verify_content_type_iff (req : http_req_t) (expected : String) :
    ((verify_content_type req expected).1 = true ↔
        ∃ value, req.find_header_line "Content-Type" = some value ∧
          starts_with_ignoring_case value expected) ∧
      (req.find_header_line "Content-Type" = some "application/json; charset=UTF-8" →
        (verify_content_type req "application/json").1 = true) ∧
      (req.find_header_line "Content-Type" = some "Application/JSON" →
        (verify_content_type req "application/json").1 = true) ∧
      (req.find_header_line "Content-Type" = none →
        (verify_content_type req "application/json").1 = false) ∧
      (req.find_header_line "Content-Type" = some "text/json" →
        (verify_content_type req "application/json").1 = false) := by
  refine ⟨?_, ?_, ?_, ?_, ?_⟩
  · cases hh : req.find_header_line "Content-Type" with
    | none => simp [verify_content_type, hh]
    | some ct =>
      cases hs : istarts_with ct expected with
      | true =>
        simp only [verify_content_type, hh, hs, Bool.not_true, if_false, Bool.false_eq_true,
          true_iff]
        exact ⟨ct, rfl, (istarts_with_iff ct expected).1 hs⟩
      | false =>
        simp only [verify_content_type, hh, hs, Bool.not_false, if_true,
          Bool.false_eq_true, false_iff]
        rintro ⟨value, hv, hstart⟩
        cases hv
        rw [(istarts_with_iff ct expected).2 hstart] at hs
        cases hs
  · intro hh
    have hs : istarts_with "application/json; charset=UTF-8" "application/json" = true := by
      decide
    simp [verify_content_type, hh, hs]
  · intro hh
    have hs : istarts_with "Application/JSON" "application/json" = true := by decide
    simp [verify_content_type, hh, hs]
  · intro hh
    simp [verify_content_type, hh]
  · intro hh
    have hs : istarts_with "text/json" "application/json" = false := by decide
    simp [verify_content_type, hh, hs]

/-- C15, on a request whose header is `APPLICATION/JSON;q=1`: the check accepts it for
`application/json`, and the header does start with it when letter case is ignored. -/
theorem verify_content_type_iff_witness :
    (verify_content_type
        (example_req http_method_t.POST [] "7" none (some "APPLICATION/JSON;q=1"))
        "application/json").1 = true ∧
      ∃ value,
        (example_req http_method_t.POST [] "7" none
          (some "APPLICATION/JSON;q=1")).find_header_line "Content-Type" = some value ∧
        starts_with_ignoring_case value "application/json" := by
  have h : (verify_content_type
        (example_req http_method_t.POST [] "7" none (some "APPLICATION/JSON;q=1"))
        "application/json").1 = true := by rfl
  exact ⟨h, ((verify_content_type_iff
    (example_req http_method_t.POST [] "7" none (some "APPLICATION/JSON;q=1"))
    "application/json").1).1 h⟩

/-- C16: in the cluster variant, when the blueprint recomputation raises the
missing-machine condition the callback returns normally, keeping the document as the
recomputation left it; so a merge-update, replace or delete whose callback meets that
condition still commits that document, once and last, and answers with the render of the
resolved node on it, not with an error. In the auth variant the callback never changes the
document and never fails. -/
theorem cluster_callback_swallows_missing_machine {S M U D : Type} [DecidableEq U]
    (app : semilattice_http_app_t S M U)
    (fill_in_blueprints : M → D → U → defaulting_map_t U Bool → effect M)
    (directory_metadata : D) (req : http_req_t) (store : S) :
    (∀ m p what m2,
        fill_in_blueprints m directory_metadata app.us p =
          effect.throw (exc_t.missing_machine_exc_t what) m2 →
        (cluster_semilattice_http_app_t app fill_in_blueprints
          directory_metadata).metadata_change_callback m p = effect.ok m2) ∧
      (∀ n m p thrown what m2,
        resolves_to (app.metadata_change_handler.get store)
          (app.json_ctx_adapter_t { us := app.us }) req.resource n →
        event_t.metadata_change_callback m p thrown ∈
          (handle (cluster_semilattice_http_app_t app fill_in_blueprints directory_metadata)
            req store).trace →
        fill_in_blueprints m directory_metadata app.us p =
          effect.throw (exc_t.missing_machine_exc_t what) m2 →
        thrown = none ∧
        (∃ pre, (handle (cluster_semilattice_http_app_t app fill_in_blueprints
            directory_metadata) req store).trace =
          pre ++ [event_t.metadata_change_callback m p none, event_t.update m2] ∧
          ∀ ev ∈ pre, ev.is_update = false) ∧
        (handle (cluster_semilattice_http_app_t app fill_in_blueprints directory_metadata)
          req store).flow = flow_t.returned (http_res_t.http_json_res (n.render m2)) ∧
        (handle (cluster_semilattice_http_app_t app fill_in_blueprints directory_metadata)
          req store).store = app.metadata_change_handler.update store m2) ∧
      ∀ m p, (auth_semilattice_http_app_t app).metadata_change_callback m p =
        effect.ok m := by
  have hswallow : ∀ m p what m2,
      fill_in_blueprints m directory_metadata app.us p =
        effect.throw (exc_t.missing_machine_exc_t what) m2 →
      (cluster_semilattice_http_app_t app fill_in_blueprints
        directory_metadata).metadata_change_callback m p = effect.ok m2 := by
    intro m p what m2 hfill
    simp [cluster_semilattice_http_app_t,
      cluster_semilattice_http_app_t.metadata_change_callback, hfill, effect.throw]
  refine ⟨hswallow, ?_, fun _ _ => rfl⟩
  intro n m p thrown what m2 hpath hev hfill
  have hcb := hswallow m p what m2 hfill
  have hthrown : thrown = none := by
    have h := handle_try_callback_thrown
      (cluster_semilattice_http_app_t app fill_in_blueprints directory_metadata)
      req store m p thrown
      (mem_handle_try_of_mem_handle _ req store _ hev (by intro line h; cases h))
    rw [h, hcb]
    rfl
  subst hthrown
  refine ⟨rfl, ?_⟩
  rcases handle_outcome
    (cluster_semilattice_http_app_t app fill_in_blueprints directory_metadata) req store with
    ⟨_, _, hno⟩ | ⟨n0, pre, m1, p1, m3, htr, ht, hcb1, hpre, hf, hs⟩
  · exact absurd hev (hno m p)
  · have hn : n0 = n := by
      have h := (traverse_eq_some_iff _ _ _ _).2 hpath
      have htr0 : traverse (app.json_ctx_adapter_t { us := app.us })
          (app.metadata_change_handler.get store) req.resource = some n0 := htr
      rw [h] at htr0
      cases htr0
      rfl
    subst hn
    rw [ht] at hev
    simp only [List.mem_append, List.mem_cons, List.mem_singleton, List.not_mem_nil,
      or_false] at hev
    rcases hev with hev | hev | hev
    · exact absurd rfl ((hpre _ hev).2.2 m p none)
    · cases hev
      rw [hcb] at hcb1
      cases hcb1
      exact ⟨⟨pre, ht, fun ev h => (hpre ev h).2.1⟩, hf, hs⟩
    · cases hev

/-- C16, on the document `a = 1, b = 2` with a recomputation that always raises
missing-machine: deleting `["a"]` still commits `b = 2` and renders the erased field. -/
theorem cluster_callback_swallows_missing_machine_witness :
    handle
        (cluster_semilattice_http_app_t (example_app true root_adapter)
          (fun m (_ : Unit) _ _ =>
            effect.throw (exc_t.missing_machine_exc_t "machine not found") m) ())
        (example_req http_method_t.DELETE ["a"] "" none none) example_store =
        { flow := flow_t.returned (http_res_t.http_json_res cJSON.Null),
          store := [("b", 2)],
          metadata := [("b", 2)],
          trace := [event_t.get, event_t.erase none,
            event_t.logINF (log_line.deleting ["a"]),
            event_t.metadata_change_callback [("b", 2)]
              (defaulting_map_t.mk_default false) none,
            event_t.update [("b", 2)]] } ∧
      (cluster_semilattice_http_app_t (example_app true root_adapter)
          (fun m (_ : Unit) _ _ =>
            effect.throw (exc_t.missing_machine_exc_t "machine not found") m)
          ()).metadata_change_callback [("b", 2)] (defaulting_map_t.mk_default false) =
        effect.ok [("b", 2)] :=
  ⟨by rfl,
   (cluster_callback_swallows_missing_machine (example_app true root_adapter)
     (fun m (_ : Unit) _ _ =>
       effect.throw (exc_t.missing_machine_exc_t "machine not found") m) ()
     (example_req http_method_t.DELETE ["a"] "" none none) example_store).1
     [("b", 2)] (defaulting_map_t.mk_default false) "machine not found" [("b", 2)] rfl⟩

/-- C17: mutating requests are atomic with respect to the store. In every run of
`handle`, if a call of reset, apply, erase or the callback raises an exception (one of the
four domain exceptions or any other), no commit is in the trace and the store is as it
was, whatever happened to the local copy; a commit occurs at most once; and when it
occurs it is the last call, it follows a callback that returned normally, it commits the
document that callback left, and no call before them threw. -/
theorem handle_commit_atomic {S M U : Type} [DecidableEq U]
    (app : semilattice_http_app_t S M U) (req : http_req_t) (store : S) :
    (∀ ev ∈ (handle app req store).trace, ∀ e, ev.thrown = some e →
        (∀ m, event_t.update m ∉ (handle app req store).trace) ∧
        (handle app req store).store = store) ∧
      ((handle app req store).trace.filter event_t.is_update).length ≤ 1 ∧
      ∀ m, event_t.update m ∈ (handle app req store).trace →
        ∃ pre m1 p,
          (handle app req store).trace =
            pre ++ [event_t.metadata_change_callback m1 p none, event_t.update m] ∧
          app.metadata_change_callback m1 p = effect.ok m ∧
          ∀ ev ∈ pre, ev.thrown = none ∧ ev.is_update = false := by
  rcases handle_outcome app req store with
    ⟨hs, hu, _⟩ | ⟨n, pre, m1, p, m2, _, ht, hcb, hpre, _, _⟩
  · have hno : ∀ m, event_t.update m ∉ (handle app req store).trace := by
      intro m hm
      have h := hu _ hm
      cases h
    refine ⟨fun _ _ _ _ => ⟨hno, hs⟩, ?_, fun m hm => absurd hm (hno m)⟩
    have hnil : (handle app req store).trace.filter event_t.is_update = [] := by
      rw [List.filter_eq_nil_iff]
      intro ev hev
      rw [hu ev hev]
      simp
    rw [hnil]
    exact Nat.zero_le 1
  · have hprefilter : pre.filter event_t.is_update = [] := by
      rw [List.filter_eq_nil_iff]
      intro ev hev
      rw [(hpre ev hev).2.1]
      simp
    refine ⟨?_, ?_, ?_⟩
    · intro ev hev e he
      rw [ht] at hev
      simp only [List.mem_append, List.mem_cons, List.mem_singleton, List.not_mem_nil,
        or_false] at hev
      rcases hev with hev | rfl | rfl
      · rw [(hpre ev hev).1] at he
        cases he
      · cases he
      · cases he
    · rw [ht, List.filter_append, hprefilter]
      simp [List.filter, event_t.is_update]
    · intro m hm
      rw [ht] at hm
      simp only [List.mem_append, List.mem_cons, List.mem_singleton, List.not_mem_nil,
        or_false] at hm
      rcases hm with hm | hm | hm
      · have h := (hpre _ hm).2.1
        cases h
      · cases hm
      · cases hm
        exact ⟨pre, m1, p, ht, hcb, fun ev hev => ⟨(hpre ev hev).1, (hpre ev hev).2.1⟩⟩

/-- C17, on the document `a = 1, b = 2` with a callback that raises cannot-satisfy-goals:
deleting `["a"]` erases the field in the local copy, the callback raises, nothing is
committed and the store still holds both fields; the answer is the internal-server-error
response. -/
theorem handle_commit_atomic_witness :
    handle
        { example_app true root_adapter with
          metadata_change_callback := fun m _ =>
            effect.throw (exc_t.cannot_satisfy_goals_exc_t "no blueprint") m }
        (example_req http_method_t.DELETE ["a"] "" none none) example_store =
        { flow := flow_t.returned (http_res_t.http_error_res "no blueprint"
            (some http_status_code_t.HTTP_INTERNAL_SERVER_ERROR)),
          store := [("a", 1), ("b", 2)],
          metadata := [("b", 2)],
          trace := [event_t.get, event_t.erase none,
            event_t.logINF (log_line.deleting ["a"]),
            event_t.metadata_change_callback [("b", 2)]
              (defaulting_map_t.mk_default false)
              (some (exc_t.cannot_satisfy_goals_exc_t "no blueprint")),
            event_t.logINF (log_line.request_threw
              (exc_t.cannot_satisfy_goals_exc_t "no blueprint"))] } ∧
      ((handle
        { example_app true root_adapter with
          metadata_change_callback := fun m _ =>
            effect.throw (exc_t.cannot_satisfy_goals_exc_t "no blueprint") m }
        (example_req http_method_t.DELETE ["a"] "" none none)
        example_store).trace.filter event_t.is_update).length ≤ 1 :=
  ⟨by rfl,
   (handle_commit_atomic
     { example_app true root_adapter with
       metadata_change_callback := fun m _ =>
         effect.throw (exc_t.cannot_satisfy_goals_exc_t "no blueprint") m }
     (example_req http_method_t.DELETE ["a"] "" none none) example_store).2.1⟩

end SemilatticeApp
